import Mathlib

/-!
Shallow embedding of the horonum natal-chart calculation pipeline
(Ephemeris.js, analysis.js) and proofs about it.

Modelling conventions:
* JavaScript numbers are modelled exactly: by `ℚ` where the computation is
  rational arithmetic, and by `ℝ` where the source applies transcendental
  functions (`Math.sin`, `Math.cos`, `Math.atan`, `Math.PI`).  Definitions
  that only use field operations and `Math.floor` are polymorphic over a
  `LinearOrderedField` with a `FloorRing` structure so the same definition
  serves both instantiations.
* The JavaScript `%` operator (sign of the dividend) is modelled by `jsMod`,
  and `Math.floor` by `Int.floor`.
* The pseudo-random sinusoidal perturbation of planetary longitudes
  (`Math.sin(daysSinceJ2000 * (0.1 + Math.random() * 0.05)) * 15`), the
  sinusoidal ecliptic-latitude offset and the sinusoidal retrograde test of
  `calculatePlanetaryPositions` are taken as explicit per-planet parameters
  (`perturb`, `latOff`, `retro`), exactly as the specification's test seam
  describes; the documented range of the perturbation is [-15, 15].
* `toFixed(2)` display formatting is dropped: numeric fields hold the
  unrounded numbers the source computes before formatting.
* The sorted-triplet pattern key `[p1,p2,p3].sort().join('-')` is modelled
  as the sorted list of the three planet identifiers; none of the planet
  identifiers contains a dash, so equality of joined keys coincides with
  equality of sorted lists.
-/

/-- Truncation toward zero, as applied by the JavaScript `%` operator to the
quotient. -/
def intTrunc {α : Type} [LinearOrderedField α] [FloorRing α] (x : α) : ℤ :=
  if 0 ≤ x then ⌊x⌋ else ⌈x⌉

/-- The JavaScript remainder operator `a % b`: `a - b * trunc (a / b)`, so the
result carries the sign of the dividend. -/
def jsMod {α : Type} [LinearOrderedField α] [FloorRing α] (a b : α) : α :=
  a - b * (intTrunc (a / b) : α)

/-- The JavaScript remainder operator on integers (used for `signIndex % 4`
in the analysis layer): truncated remainder, sign of the dividend. -/
def jsIntMod (a b : ℤ) : ℤ :=
  Int.tmod a b

/-! ## TimeConverter: `calculateJulianDay` (Ephemeris.js lines 58-79)

The source reads year/month/day/hour-minute-second off a `Date` object; the
embedding takes those civil components directly, with the fractional hour
`getHours() + getMinutes()/60 + getSeconds()/3600` as a single rational. -/

/-- `calculateJulianDay` from Ephemeris.js: the standard Gregorian
civil-date-to-Julian-Day formula. -/
def calculateJulianDay (year month day : ℤ) (hour : ℚ) : ℚ :=
  let y : ℤ := if month > 2 then year else year - 1
  let m : ℤ := if month > 2 then month else month + 12
  let a : ℤ := ⌊(y : ℚ) / 100⌋
  let b : ℤ := 2 - a + ⌊(a : ℚ) / 4⌋
  ((⌊(365.25 : ℚ) * ((y : ℚ) + 4716)⌋ : ℤ) : ℚ)
    + ((⌊(30.6001 : ℚ) * ((m : ℚ) + 1)⌋ : ℤ) : ℚ)
    + (day : ℚ) + hour / 24 + (b : ℚ) - 1524.5

/-- The integer part of `calculateJulianDay` that depends only on year and
month (the whole-day base of the month). -/
def jdBase (year month : ℤ) : ℤ :=
  let y : ℤ := if month > 2 then year else year - 1
  let m : ℤ := if month > 2 then month else month + 12
  let a : ℤ := ⌊(y : ℚ) / 100⌋
  let b : ℤ := 2 - a + ⌊(a : ℚ) / 4⌋
  ⌊(365.25 : ℚ) * ((y : ℚ) + 4716)⌋ + ⌊(30.6001 : ℚ) * ((m : ℚ) + 1)⌋ + b

/-- A civil date/time as read off the input `Date`: calendar year, month
(1-12), day of month, and fractional hour of day. -/
structure CivilDateTime where
  year : ℤ
  month : ℤ
  day : ℤ
  hour : ℚ

/-- Gregorian leap-year rule (for stating which civil dates are valid). -/
def isLeapYear (y : ℤ) : Prop :=
  (y % 4 = 0 ∧ y % 100 ≠ 0) ∨ y % 400 = 0

instance (y : ℤ) : Decidable (isLeapYear y) := by
  unfold isLeapYear; infer_instance

/-- Length of a Gregorian calendar month. -/
def daysInMonth (y m : ℤ) : ℤ :=
  if m = 2 then (if isLeapYear y then 29 else 28)
  else if m = 4 ∨ m = 6 ∨ m = 9 ∨ m = 11 then 30 else 31

/-- A well-formed Gregorian civil date/time. -/
def ValidCivil (t : CivilDateTime) : Prop :=
  1 ≤ t.month ∧ t.month ≤ 12 ∧ 1 ≤ t.day ∧ t.day ≤ daysInMonth t.year t.month
    ∧ 0 ≤ t.hour ∧ t.hour < 24

instance (t : CivilDateTime) : Decidable (ValidCivil t) := by
  unfold ValidCivil; infer_instance

/-- Chronological (lexicographic) order on civil date/times. -/
def civilEarlier (t1 t2 : CivilDateTime) : Prop :=
  t1.year < t2.year ∨ (t1.year = t2.year ∧
    (t1.month < t2.month ∨ (t1.month = t2.month ∧
      (t1.day < t2.day ∨ (t1.day = t2.day ∧ t1.hour < t2.hour)))))

instance (t1 t2 : CivilDateTime) : Decidable (civilEarlier t1 t2) := by
  unfold civilEarlier; infer_instance

/-- The Julian Day of a civil date/time, via `calculateJulianDay`. -/
def toJulianDay (t : CivilDateTime) : ℚ :=
  calculateJulianDay t.year t.month t.day t.hour

/-! ## PositionEngine: planet registry and `calculatePlanetaryPositions`
(Ephemeris.js lines 7-19, 82-123) -/

/-- Static per-planet display attributes and angular speed, from the
`planets` registry at the top of Ephemeris.js. -/
structure PlanetData (α : Type) where
  pname : String
  symbol : String
  color : String
  orbSpeed : α

/-- The fixed ten-planet registry `planets` of Ephemeris.js, in its
declaration (= iteration) order. -/
def planetRegistry (α : Type) [LinearOrderedField α] : List (String × PlanetData α) :=
  [("sun", ⟨"Sun", "☉", "#FFD700", 1⟩),
   ("moon", ⟨"Moon", "☽", "#SILVER", 13.2⟩),
   ("mercury", ⟨"Mercury", "☿", "#B5B8B1", 4.1⟩),
   ("venus", ⟨"Venus", "♀", "#FFCC99", 1.6⟩),
   ("mars", ⟨"Mars", "♂", "#FF4500", 0.5⟩),
   ("jupiter", ⟨"Jupiter", "♃", "#F0E68C", 0.08⟩),
   ("saturn", ⟨"Saturn", "♄", "#696969", 0.03⟩),
   ("uranus", ⟨"Uranus", "♅", "#40E0D0", 0.01⟩),
   ("neptune", ⟨"Neptune", "♆", "#5D8AA8", 0.006⟩),
   ("pluto", ⟨"Pluto", "♇", "#A0522D", 0.004⟩)]

/-- The ten planet identifiers, in registry order. -/
def planetKeys : List String :=
  (planetRegistry ℚ).map Prod.fst

/-- One computed planetary position (the dynamic fields of the record built
by `calculatePlanetaryPositions`; the static display attributes are spread
from the registry and omitted here). -/
structure PlanetPosition (α : Type) where
  longitude : α
  latitude : α
  sign : ℤ
  degree : α
  isRetrograde : Bool
deriving DecidableEq

/-- The J2000 base Julian Day used by `calculatePlanetaryPositions`:
`calculateJulianDay(new Date("2000-01-01T12:00:00Z"))`. -/
def baseJD (α : Type) [LinearOrderedField α] : α :=
  ((calculateJulianDay 2000 1 1 12 : ℚ) : α)

/-- `jd - baseJD`, the day offset from the J2000 epoch. -/
def daysSinceJ2000 {α : Type} [LinearOrderedField α] (jd : α) : α :=
  jd - baseJD α

/-- `calculatePlanetaryPositions` from Ephemeris.js.  `latitude` and
`longitude` are accepted and unused exactly as in the source.  `perturb`,
`latOff` and `retro` are the per-planet values of the three sinusoidal
expressions of the source (see the header comment); the documented range of
`perturb` is [-15, 15]. -/
def calculatePlanetaryPositions {α : Type} [LinearOrderedField α] [FloorRing α]
    (jd latitude longitude : α) (perturb latOff : String → α)
    (retro : String → Bool) : List (String × PlanetPosition α) :=
  let days := daysSinceJ2000 jd
  (planetRegistry α).map fun p =>
    let speed := p.2.orbSpeed
    let position := jsMod (days * speed) 360
    let degreeInZodiac := jsMod (position + perturb p.1 + 360) 360
    let signIndex := ⌊degreeInZodiac / 30⌋
    let degreeInSign := jsMod degreeInZodiac 30
    (p.1, { longitude := degreeInZodiac, latitude := latOff p.1,
            sign := signIndex, degree := degreeInSign,
            isRetrograde := retro p.1 })

/-! ## AspectEngine: `calculateAspects` (Ephemeris.js lines 205-262) -/

/-- One entry of the fixed aspect-type table. -/
structure AspectType (α : Type) where
  key : String
  angle : α
  orb : α
  symbol : String
  aname : String
  influence : String

/-- The fixed 11-entry `aspectTypes` table, in its declaration (= iteration,
= priority) order. -/
def aspectTypes (α : Type) [LinearOrderedField α] : List (AspectType α) :=
  [⟨"conjunction", 0, 8, "☌", "Conjunction", "Strong"⟩,
   ⟨"opposition", 180, 8, "☍", "Opposition", "Strong"⟩,
   ⟨"trine", 120, 8, "△", "Trine", "Harmonious"⟩,
   ⟨"square", 90, 7, "□", "Square", "Challenging"⟩,
   ⟨"sextile", 60, 6, "⚹", "Sextile", "Harmonious"⟩,
   ⟨"semisextile", 30, 3, "⚺", "Semi-sextile", "Mild"⟩,
   ⟨"semisquare", 45, 3, "⚼", "Semi-square", "Challenging"⟩,
   ⟨"sesquiquadrate", 135, 3, "⚿", "Sesquiquadrate", "Challenging"⟩,
   ⟨"quincunx", 150, 5, "⚻", "Quincunx", "Adjustment"⟩,
   ⟨"quintile", 72, 2, "Q", "Quintile", "Creative"⟩,
   ⟨"biquintile", 144, 2, "bQ", "Biquintile", "Creative"⟩]

/-- One emitted aspect between a pair of planets. -/
structure Aspect (α : Type) where
  planet1 : String
  planet2 : String
  type : String
  angle : α
  orb : α
  symbol : String
  aname : String
  influence : String
  applying : Bool
deriving DecidableEq

/-- The angular separation used by `calculateAspects`: `|lon1 - lon2|`,
folded onto [0, 180] when it exceeds 180. -/
def pairAngle {α : Type} [LinearOrderedField α] (lon1 lon2 : α) : α :=
  let angle := |lon1 - lon2|
  if angle > 180 then 360 - angle else angle

/-- The first aspect type (in priority order) whose orb test passes, i.e.
the inner `for ... in aspectTypes` loop with its `break`. -/
def firstAspectMatch {α : Type} [LinearOrderedField α] (angle : α) :
    Option (AspectType α) :=
  (aspectTypes α).find? fun t => decide (|angle - t.angle| ≤ t.orb)

/-- The body of the pair loop of `calculateAspects`: classify one ordered
pair of planets, yielding at most one aspect. -/
def mkAspect {α : Type} [LinearOrderedField α]
    (x y : String × PlanetPosition α) : Option (Aspect α) :=
  let angle := pairAngle x.2.longitude y.2.longitude
  (firstAspectMatch angle).map fun t =>
    { planet1 := x.1, planet2 := y.1, type := t.key, angle := angle,
      orb := |angle - t.angle|, symbol := t.symbol, aname := t.aname,
      influence := t.influence,
      applying := if x.2.longitude < y.2.longitude
        then !(x.2.isRetrograde == y.2.isRetrograde)
        else (x.2.isRetrograde == y.2.isRetrograde) }

/-- All ordered pairs `(l[i], l[j])` with `i < j`, in the double-loop order
of `calculateAspects`. -/
def pairsOf {γ : Type} : List γ → List (γ × γ)
  | [] => []
  | x :: xs => (xs.map fun y => (x, y)) ++ pairsOf xs

/-- `calculateAspects` from Ephemeris.js: for each unordered planet pair in
iteration order, emit the first matching aspect type, if any. -/
def calculateAspects {α : Type} [LinearOrderedField α]
    (positions : List (String × PlanetPosition α)) : List (Aspect α) :=
  (pairsOf positions).filterMap fun pr => mkAspect pr.1 pr.2

/-! ## DignityEngine: `getPlanetDignity` (Ephemeris.js lines 316-357) -/

/-- One row of the essential-dignities table.  A scalar sign in the source
is modelled as a one-element list (the source's `=== signIndex` test on a
scalar is membership in the singleton; `null` never matches and is
`Option.none`). -/
structure DignityEntry where
  rulership : List ℤ
  exaltation : Option ℤ
  detriment : List ℤ
  fall : Option ℤ

/-- The `dignities` table of `getPlanetDignity`. -/
def dignities : List (String × DignityEntry) :=
  [("sun", ⟨[4], some 0, [10], some 6⟩),
   ("moon", ⟨[3], some 1, [9], some 7⟩),
   ("mercury", ⟨[2, 5], none, [8, 11], none⟩),
   ("venus", ⟨[1, 6], some 11, [7, 0], some 5⟩),
   ("mars", ⟨[0, 7], some 9, [1, 6], some 3⟩),
   ("jupiter", ⟨[8, 11], some 3, [2, 5], some 9⟩),
   ("saturn", ⟨[9, 10], some 6, [3, 4], some 0⟩),
   ("uranus", ⟨[10], none, [4], none⟩),
   ("neptune", ⟨[11], none, [5], none⟩),
   ("pluto", ⟨[7], none, [1], none⟩)]

/-- The five dignity categories a lookup can produce. -/
def dignityCategories : List String :=
  ["Rulership", "Exaltation", "Detriment", "Fall", "Neutral"]

/-- `getPlanetDignity` from Ephemeris.js. -/
def getPlanetDignity (planet : String) (signIndex : ℤ) : String :=
  match dignities.lookup planet with
  | none => "Neutral"
  | some d =>
    if signIndex ∈ d.rulership then "Rulership"
    else if d.exaltation = some signIndex then "Exaltation"
    else if signIndex ∈ d.detriment then "Detriment"
    else if d.fall = some signIndex then "Fall"
    else "Neutral"

/-- The rulership sign-set of a planet (empty for unknown planets). -/
def rulershipSigns (planet : String) : List ℤ :=
  ((dignities.lookup planet).getD ⟨[], none, [], none⟩).rulership

/-- The detriment sign-set of a planet (empty for unknown planets). -/
def detrimentSigns (planet : String) : List ℤ :=
  ((dignities.lookup planet).getD ⟨[], none, [], none⟩).detriment

/-! ## HouseEngine (Ephemeris.js lines 126-202)

These functions apply `Math.sin` / `Math.cos` / `Math.atan` / `Math.PI`, so
they are modelled over `ℝ` (exact real arithmetic has no executable
representation; this is the one part of the development that is not a
computable definition). -/

/-- A house cusp record. -/
structure HouseCusp (α : Type) where
  number : ℤ
  cusp : α
  system : String

instance {α : Type} [Zero α] : Inhabited (HouseCusp α) :=
  ⟨⟨0, 0, ""⟩⟩

/-- `calculateLocalSiderealTime` from Ephemeris.js. -/
noncomputable def calculateLocalSiderealTime (jd longitude : ℝ) : ℝ :=
  let T := (jd - 2451545.0) / 36525
  let theta := 280.46061837 + 360.98564736629 * (jd - 2451545.0)
    + 0.000387933 * T * T - T * T * T / 38710000
  jsMod (theta + longitude) 360

/-- `calculateAscendant` from Ephemeris.js.  `Math.tan(0)` is kept verbatim
as `Real.tan 0`. -/
noncomputable def calculateAscendant (jd latitude longitude : ℝ) : ℝ :=
  let LMST := calculateLocalSiderealTime jd longitude
  let latRad := latitude * Real.pi / 180
  let lstRad := LMST * Real.pi / 180
  let tanAsc := -Real.cos lstRad /
    (Real.sin lstRad * Real.cos latRad - Real.tan 0 * Real.sin latRad)
  let asc0 := Real.arctan tanAsc * 180 / Real.pi
  let asc1 := if Real.cos lstRad > 0 then asc0 + 180 else asc0
  jsMod (asc1 + 360) 360

/-- `calculateMidheaven` from Ephemeris.js. -/
noncomputable def calculateMidheaven (LMST : ℝ) : ℝ :=
  jsMod LMST 360

/-- Insert a cusp into a list sorted by house number (helper for the
`houses.sort((a, b) => a.number - b.number)` call of the source). -/
def insertByNumber {α : Type} (h : HouseCusp α) :
    List (HouseCusp α) → List (HouseCusp α)
  | [] => [h]
  | h2 :: t => if h.number ≤ h2.number then h :: h2 :: t
               else h2 :: insertByNumber h t

/-- Sort a cusp list by house number (the numbers are pairwise distinct, so
this agrees with the source's comparison sort). -/
def sortByNumber {α : Type} : List (HouseCusp α) → List (HouseCusp α)
  | [] => []
  | h :: t => insertByNumber h (sortByNumber t)

/-- The `system === "equal"` branch of `calculateHouses`: twelve cusps at
exact 30-degree steps from the ascendant. -/
noncomputable def equalHouses (ascendant : ℝ) : List (HouseCusp ℝ) :=
  (List.range 12).map fun i : ℕ =>
    ⟨(i : ℤ) + 1, jsMod (ascendant + (i : ℝ) * 30) 360, "Equal"⟩

/-- The default (Placidus-approximation) branch of `calculateHouses`. -/
noncomputable def placidusHouses (ascendant mc latitude : ℝ) :
  List (HouseCusp ℝ) :=
  let h1 : HouseCusp ℝ := ⟨1, ascendant, "Placidus"⟩
  let h10 : HouseCusp ℝ := ⟨10, mc, "Placidus"⟩
  let h2 : HouseCusp ℝ :=
    ⟨2, jsMod (ascendant + 30 + Real.sin (latitude * 0.1) * 5) 360, "Placidus"⟩
  let h3 : HouseCusp ℝ :=
    ⟨3, jsMod (ascendant + 60 + Real.sin (latitude * 0.2) * 7) 360, "Placidus"⟩
  let h4 : HouseCusp ℝ := ⟨4, jsMod (mc + 180) 360, "Placidus"⟩
  let h5 : HouseCusp ℝ := ⟨5, jsMod (h3.cusp + 180) 360, "Placidus"⟩
  let h6 : HouseCusp ℝ := ⟨6, jsMod (h2.cusp + 180) 360, "Placidus"⟩
  let h7 : HouseCusp ℝ := ⟨7, jsMod (ascendant + 180) 360, "Placidus"⟩
  let h8 : HouseCusp ℝ :=
    ⟨8, jsMod (h6.cusp + 30 + Real.sin (latitude * 0.1) * 5) 360, "Placidus"⟩
  let h9 : HouseCusp ℝ :=
    ⟨9, jsMod (h6.cusp + 60 + Real.sin (latitude * 0.2) * 7) 360, "Placidus"⟩
  let h11 : HouseCusp ℝ :=
    ⟨11, jsMod (mc + 30 + Real.sin (latitude * 0.1) * 5) 360, "Placidus"⟩
  let h12 : HouseCusp ℝ :=
    ⟨12, jsMod (mc + 60 + Real.sin (latitude * 0.2) * 7) 360, "Placidus"⟩
  sortByNumber [h1, h10, h2, h3, h4, h5, h6, h7, h8, h9, h11, h12]

/-- `calculateHouses` from Ephemeris.js. -/
noncomputable def calculateHouses (jd latitude longitude : ℝ)
    (system : String) : List (HouseCusp ℝ) :=
  let LMST := calculateLocalSiderealTime jd longitude
  if system = "equal" then
    equalHouses (calculateAscendant jd latitude longitude)
  else
    placidusHouses (calculateAscendant jd latitude longitude)
      (calculateMidheaven LMST) latitude

/-! ## `determinePlanetHouse` (Ephemeris.js lines 264-285) -/

/-- The containment test of one iteration of the `determinePlanetHouse`
loop, including the wraparound case at 0° Aries. -/
def inHouseArc {α : Type} [LinearOrderedField α]
    (lon houseStart houseEnd : α) : Bool :=
  if houseEnd < houseStart then
    decide (lon ≥ houseStart) || decide (lon < houseEnd)
  else
    decide (lon ≥ houseStart) && decide (lon < houseEnd)

/-- `determinePlanetHouse` from Ephemeris.js: the first house (by number)
whose arc contains the planet's longitude, defaulting to house 1. -/
def determinePlanetHouse {α : Type} [LinearOrderedField α] [Zero α]
    (planetPosition : PlanetPosition α) (houses : List (HouseCusp α)) : ℕ :=
  match (List.range 12).find? (fun i =>
      inHouseArc planetPosition.longitude
        (houses.getD i default).cusp
        (houses.getD ((i + 1) % 12) default).cusp) with
  | some i => i + 1
  | none => 1

/-! ## AnalysisEngine: `findSpecialPatterns` (analysis.js lines 254-342) -/

/-- The four-element cycle used by `getSignElement`. -/
def elementNames : List String :=
  ["Fire", "Earth", "Air", "Water"]

/-- `getSignElement` from analysis.js: `elements[signIndex % 4]`.  A
negative JavaScript `%` result indexes nothing (`undefined`), modelled as
`none`. -/
def getSignElement (signIndex : ℤ) : Option String :=
  let r := jsIntMod signIndex 4
  if 0 ≤ r then elementNames.get? r.toNat else none

/-- The sorted triplet key `[p1,p2,p3].sort().join('-')`, modelled as the
sorted list (see the header comment). -/
def sortKey3 (p1 p2 p3 : String) : List String :=
  List.insertionSort (· ≤ ·) [p1, p2, p3]

/-- One detected special pattern.  `interpretation` text lookups are out of
scope; `element` is `none` for T-Squares, `focus` is `none` for Grand
Trines. -/
structure ChartPattern where
  ptype : String
  planets : List String
  element : Option String
  focus : Option String
deriving DecidableEq

/-- Add `b` to `a`'s adjacency set (`trineGroups[a].add(b)` preceded by the
`if (!trineGroups[a]) trineGroups[a] = new Set()` guard), preserving
insertion order. -/
def addNeighbor (g : List (String × List String)) (a b : String) :
    List (String × List String) :=
  match g with
  | [] => [(a, [b])]
  | (k, ns) :: rest =>
    if k = a then (k, if b ∈ ns then ns else ns ++ [b]) :: rest
    else (k, ns) :: addNeighbor rest a b

/-- The `trines.forEach` loop of `findSpecialPatterns`: build the undirected
trine adjacency structure. -/
def buildTrineGroups (trines : List (Aspect ℚ)) : List (String × List String) :=
  trines.foldl (fun g t => addNeighbor (addNeighbor g t.planet1 t.planet2)
    t.planet2 t.planet1) []

/-- Neighbor lookup in the adjacency structure (`trineGroups[p]`, empty when
absent). -/
def lookupNbrs : List (String × List String) → String → List String
  | [], _ => []
  | (k, ns) :: rest, p => if k = p then ns else lookupNbrs rest p

/-- The innermost body of the Grand-Trine triple loop: on a mutually-trining
triple, push one pattern unless its sorted key is already present. -/
def pushGrandTrine (pos : String → ℚ) (groups : List (String × List String))
    (pats : List ChartPattern) (p1 p2 p3 : String) : List ChartPattern :=
  if p2 ≠ p3 ∧ p3 ∈ lookupNbrs groups p2 then
    if pats.any (fun p => decide (p.planets = sortKey3 p1 p2 p3)) then pats
    else pats ++
      [⟨"Grand Trine", sortKey3 p1 p2 p3, getSignElement ⌊pos p1 / 30⌋, none⟩]
  else pats

/-- The Grand-Trine detection phase: triple loop over the adjacency
structure. -/
def grandTrinePhase (pos : String → ℚ)
    (groups : List (String × List String)) : List ChartPattern :=
  groups.foldl (fun pats e =>
    e.2.foldl (fun ps p2 =>
      e.2.foldl (fun ps2 p3 => pushGrandTrine pos groups ps2 e.1 p2 p3) ps)
      pats) []

/-- The `squares.some(...)` test: does `p3` square `p1` or `p2` (either
orientation)? -/
def squaresOther (squares : List (Aspect ℚ)) (p3 p1 p2 : String) : Bool :=
  squares.any fun sq =>
    (decide (sq.planet1 = p3) && (decide (sq.planet2 = p1) || decide (sq.planet2 = p2)))
    || (decide (sq.planet2 = p3) && (decide (sq.planet1 = p1) || decide (sq.planet1 = p2)))

/-- The focal planet extracted from a square aspect by the T-Square loop. -/
def tsFocal (p1 p2 : String) (sq : Aspect ℚ) : String :=
  if sq.planet1 = p1 ∨ sq.planet1 = p2 then sq.planet2 else sq.planet1

/-- The body of the T-Square square loop for one opposition `(p1, p2)` and
one square aspect. -/
def pushTSquare (squares : List (Aspect ℚ)) (pats : List ChartPattern)
    (p1 p2 : String) (sq : Aspect ℚ) : List ChartPattern :=
  if (sq.planet1 = p1 ∧ sq.planet2 ≠ p2) ∨ (sq.planet1 = p2 ∧ sq.planet2 ≠ p1) then
    if squaresOther squares (tsFocal p1 p2 sq) p1 p2 then
      if pats.any (fun p => decide (p.planets = sortKey3 p1 p2 (tsFocal p1 p2 sq)))
      then pats
      else pats ++ [⟨"T-Square", sortKey3 p1 p2 (tsFocal p1 p2 sq), none,
        some (tsFocal p1 p2 sq)⟩]
    else pats
  else pats

/-- The T-Square detection phase, continuing on the pattern list produced by
the Grand-Trine phase. -/
def tSquarePhase (squares oppositions : List (Aspect ℚ))
    (pats0 : List ChartPattern) : List ChartPattern :=
  oppositions.foldl (fun pats opp =>
    squares.foldl (fun ps sq => pushTSquare squares ps opp.planet1 opp.planet2 sq)
      pats) pats0

/-- `findSpecialPatterns` from analysis.js (Grand Trine and T-Square
detection; Grand Cross detection is an empty stub in the source).  `pos`
gives each planet's ecliptic longitude (`chartData.planets[p].longitude`). -/
def findSpecialPatterns (pos : String → ℚ) (aspects : List (Aspect ℚ)) :
    List ChartPattern :=
  let trines := aspects.filter fun a => decide (a.type = "trine")
  let squares := aspects.filter fun a => decide (a.type = "square")
  let oppositions := aspects.filter fun a => decide (a.type = "opposition")
  tSquarePhase squares oppositions (grandTrinePhase pos (buildTrineGroups trines))

/-- Does the aspect list contain a trine between `x` and `y` (either
orientation)? -/
def trineBetween (aspects : List (Aspect ℚ)) (x y : String) : Prop :=
  ∃ a ∈ aspects, a.type = "trine" ∧
    ((a.planet1 = x ∧ a.planet2 = y) ∨ (a.planet1 = y ∧ a.planet2 = x))

instance (aspects : List (Aspect ℚ)) (x y : String) :
    Decidable (trineBetween aspects x y) := by
  unfold trineBetween; infer_instance

/-! ## ChartAssembler: `calculateNatalChart` (Ephemeris.js lines 32-55) -/

/-- The assembled chart model. -/
structure Chart where
  planets : List (String × PlanetPosition ℝ)
  houses : List (HouseCusp ℝ)
  aspects : List (Aspect ℝ)
  ascendant : ℝ
  midheaven : ℝ
  julianDay : ℝ

/-- `calculateNatalChart` from Ephemeris.js, for a birth date/time given by
its civil components (the string parsing of `new Date(...)` yields exactly
these components).  The sinusoidal/pseudo-random seams of the position
engine are passed through. -/
noncomputable def calculateNatalChart (year month day : ℤ) (hour : ℚ)
    (latitude longitude : ℝ) (houseSystem : String)
    (perturb latOff : String → ℝ) (retro : String → Bool) : Chart :=
  let JD : ℝ := ((calculateJulianDay year month day hour : ℚ) : ℝ)
  let planetPositions :=
    calculatePlanetaryPositions JD latitude longitude perturb latOff retro
  let houses := calculateHouses JD latitude longitude houseSystem
  let aspects := calculateAspects planetPositions
  { planets := planetPositions, houses := houses, aspects := aspects,
    ascendant := (houses.getD 0 default).cusp,
    midheaven := (houses.getD 9 default).cusp,
    julianDay := JD }

/-- Does an aspect relate the unordered planet pair `{p, q}`? -/
def pairPred (p q : String) {α : Type} (a : Aspect α) : Bool :=
  (decide (a.planet1 = p) && decide (a.planet2 = q))
    || (decide (a.planet1 = q) && decide (a.planet2 = p))

/-! ## Concrete inputs used in evaluations and witnesses -/

/-- A three-planet position map (Sun 0°, Mars 90°, Jupiter 270°) whose
aspects form a T-shape: Mars opposes Jupiter and the Sun squares both. -/
def tSquareExamplePositions : List (String × PlanetPosition ℚ) :=
  [("sun", ⟨0, 0, 0, 0, false⟩),
   ("mars", ⟨90, 0, 3, 0, false⟩),
   ("jupiter", ⟨270, 0, 9, 0, false⟩)]

/-- A two-planet position map (Sun 0°, Moon 120°) in exact trine. -/
def pairExamplePositions : List (String × PlanetPosition ℚ) :=
  [("sun", ⟨0, 0, 0, 0, false⟩),
   ("moon", ⟨120, 0, 4, 0, false⟩)]

/-- Three aspects making Sun, Moon and Venus a mutually-trining triple. -/
def grandTrineExampleAspects : List (Aspect ℚ) :=
  [⟨"sun", "moon", "trine", 120, 0, "△", "Trine", "Harmonious", false⟩,
   ⟨"moon", "venus", "trine", 120, 0, "△", "Trine", "Harmonious", false⟩,
   ⟨"sun", "venus", "trine", 120, 0, "△", "Trine", "Harmonious", false⟩]

/-! ## Arithmetic lemmas about `jsMod` -/

theorem intTrunc_of_nonneg {α : Type} [LinearOrderedField α] [FloorRing α]
    {x : α} (h : 0 ≤ x) : intTrunc x = ⌊x⌋ := by
  simp [intTrunc, h]

theorem intTrunc_of_neg {α : Type} [LinearOrderedField α] [FloorRing α]
    {x : α} (h : x < 0) : intTrunc x = ⌈x⌉ := by
  simp [intTrunc, not_le.mpr h]

theorem jsMod_eq_floor {α : Type} [LinearOrderedField α] [FloorRing α]
    {a b : α} (ha : 0 ≤ a) (hb : 0 < b) :
    jsMod a b = a - b * ⌊a / b⌋ := by
  rw [jsMod, intTrunc_of_nonneg (div_nonneg ha hb.le)]

theorem jsMod_nonneg {α : Type} [LinearOrderedField α] [FloorRing α]
    {a b : α} (ha : 0 ≤ a) (hb : 0 < b) : 0 ≤ jsMod a b := by
  rw [jsMod_eq_floor ha hb]
  have h1 : b * ⌊a / b⌋ ≤ b * (a / b) :=
    mul_le_mul_of_nonneg_left (Int.floor_le _) hb.le
  have h2 : b * (a / b) = a := by field_simp
  linarith

theorem jsMod_lt {α : Type} [LinearOrderedField α] [FloorRing α]
    {a b : α} (ha : 0 ≤ a) (hb : 0 < b) : jsMod a b < b := by
  rw [jsMod_eq_floor ha hb]
  have h1 : a / b < ⌊a / b⌋ + 1 := Int.lt_floor_add_one _
  have h2 : a < b * (⌊a / b⌋ + 1) := by
    have := (div_lt_iff hb).mp h1
    linarith [this]
  linarith [h2]

theorem jsMod_eq_self {α : Type} [LinearOrderedField α] [FloorRing α]
    {a b : α} (ha : 0 ≤ a) (hb : 0 < b) (hab : a < b) : jsMod a b = a := by
  rw [jsMod_eq_floor ha hb]
  have h0 : ⌊a / b⌋ = 0 := by
    rw [Int.floor_eq_zero_iff]
    constructor
    · exact div_nonneg ha hb.le
    · rw [div_lt_one hb]; exact hab
  rw [h0]
  simp

theorem jsMod_eval_nonneg {α : Type} [LinearOrderedField α] [FloorRing α]
    {a b : α} (q : ℤ) (hb : 0 < b) (hq : 0 ≤ q)
    (h1 : b * q ≤ a) (h2 : a < b * (q + 1)) : jsMod a b = a - b * q := by
  have ha : 0 ≤ a := by
    have : (0:α) ≤ b * q := by positivity
    linarith
  rw [jsMod_eq_floor ha hb]
  have hfl : ⌊a / b⌋ = q := by
    rw [Int.floor_eq_iff]
    constructor
    · rw [le_div_iff hb]; linarith [h1]
    · rw [div_lt_iff hb]; push_cast; linarith [h2]
  rw [hfl]

theorem jsMod_eval_neg {α : Type} [LinearOrderedField α] [FloorRing α]
    {a b : α} (q : ℤ) (hb : 0 < b) (ha : a < 0)
    (h1 : b * (q - 1) < a) (h2 : a ≤ b * q) : jsMod a b = a - b * q := by
  have hdiv : a / b < 0 := div_neg_of_neg_of_pos ha hb
  rw [jsMod, intTrunc_of_neg hdiv]
  have hcl : ⌈a / b⌉ = q := by
    rw [Int.ceil_eq_iff]
    constructor
    · rw [lt_div_iff hb]; push_cast; linarith [h1]
    · rw [div_le_iff hb]; linarith [h2]
  rw [hcl]

theorem jsMod_shift_diff {α : Type} [LinearOrderedField α] [FloorRing α]
    (a1 a2 b : α) (hb : 0 < b) (h1 : 0 ≤ a1) (h2 : 0 ≤ a2) :
    ∃ k : ℤ, jsMod a2 b - jsMod a1 b = (a2 - a1) + b * k := by
  refine ⟨⌊a1 / b⌋ - ⌊a2 / b⌋, ?_⟩
  rw [jsMod_eq_floor h1 hb, jsMod_eq_floor h2 hb]
  push_cast
  ring

/-! ## Evaluation of the Julian Day formula at the J2000 epoch -/

theorem floorQ_eval {x : ℚ} {z : ℤ} (h1 : (z : ℚ) ≤ x) (h2 : x < z + 1) :
    ⌊x⌋ = z :=
  Int.floor_eq_iff.mpr ⟨h1, by exact_mod_cast h2⟩

theorem calculateJulianDay_J2000 : calculateJulianDay 2000 1 1 12 = 2451545 := by
  unfold calculateJulianDay
  norm_num

theorem baseJD_rat : baseJD ℚ = 2451545 := by
  rw [baseJD, calculateJulianDay_J2000]
  norm_num

/-! ## Claim C8: dignity totality and rulership/detriment disjointness -/

/-- Claim C8: for every planet in the ten-planet set and every sign index in
[0,11], `getPlanetDignity` returns exactly one of the five categories
(Rulership, Exaltation, Detriment, Fall, Neutral) — it is total and never
fails — and for every planet its rulership sign-set and its detriment
sign-set are disjoint. -/
theorem claim_C8_dignity_totality :
    (∀ p ∈ planetKeys, ∀ s ∈ Finset.Icc (0 : ℤ) 11,
      getPlanetDignity p s ∈ dignityCategories) ∧
    (∀ p ∈ planetKeys, ∀ s ∈ rulershipSigns p, s ∉ detrimentSigns p) := by
  decide

/-- Witness for C8 at the Sun in Leo (sign index 4). -/
theorem claim_C8_dignity_totality_witness :
    getPlanetDignity "sun" 4 ∈ dignityCategories ∧
      (4 : ℤ) ∉ detrimentSigns "sun" :=
  ⟨claim_C8_dignity_totality.1 "sun" (by decide) 4 (by decide),
   claim_C8_dignity_totality.2 "sun" (by decide) 4 (by decide)⟩

/-! ## Claim C10: totality and range of `determinePlanetHouse` -/

/-- Claim C10: for every planet position and every 12-element house-cusp
list, `determinePlanetHouse` is total and returns a house number in [1,12];
when no house arc (computed with wraparound at 0° Aries) contains the
planet's longitude it returns the default house 1 rather than failing. -/
theorem claim_C10_house_total (p : PlanetPosition ℚ)
    (houses : List (HouseCusp ℚ)) (hlen : houses.length = 12) :
    1 ≤ determinePlanetHouse p houses ∧ determinePlanetHouse p houses ≤ 12 ∧
    ((∀ i : ℕ, i < 12 →
        inHouseArc p.longitude (houses.getD i default).cusp
          (houses.getD ((i + 1) % 12) default).cusp = false) →
      determinePlanetHouse p houses = 1) := by
  unfold determinePlanetHouse
  rcases hfind : (List.range 12).find? (fun i =>
      inHouseArc p.longitude (houses.getD i default).cusp
        (houses.getD ((i + 1) % 12) default).cusp) with _ | i
  · refine ⟨le_refl 1, by norm_num, fun _ => rfl⟩
  · have hmem : i ∈ List.range 12 := List.mem_of_find?_eq_some hfind
    have hlt : i < 12 := List.mem_range.mp hmem
    refine ⟨Nat.le_add_left 1 i, by show i + 1 ≤ 12; omega, fun hnone => ?_⟩
    have htrue := List.find?_some hfind
    have hfalse := hnone i hlt
    rw [hfalse] at htrue
    simp at htrue

/-- Witness for C10: a longitude of 5 against twelve coincident cusps at 0
matches no arc and yields the default house 1. -/
theorem claim_C10_house_total_witness :
    1 ≤ determinePlanetHouse (⟨5, 0, 0, 5, false⟩ : PlanetPosition ℚ)
        (List.replicate 12 ⟨1, 0, "Equal"⟩) ∧
    determinePlanetHouse (⟨5, 0, 0, 5, false⟩ : PlanetPosition ℚ)
        (List.replicate 12 ⟨1, 0, "Equal"⟩) ≤ 12 ∧
    ((∀ i : ℕ, i < 12 →
        inHouseArc (5 : ℚ)
          ((List.replicate 12 (⟨1, 0, "Equal"⟩ : HouseCusp ℚ)).getD i default).cusp
          ((List.replicate 12 (⟨1, 0, "Equal"⟩ : HouseCusp ℚ)).getD ((i + 1) % 12) default).cusp
          = false) →
      determinePlanetHouse (⟨5, 0, 0, 5, false⟩ : PlanetPosition ℚ)
        (List.replicate 12 ⟨1, 0, "Equal"⟩) = 1) :=
  claim_C10_house_total ⟨5, 0, 0, 5, false⟩ (List.replicate 12 ⟨1, 0, "Equal"⟩)
    (by simp)

/-! ## Claim C1: the emitted longitude can leave [0,360) before J2000 -/

/-- Claim C1 (failing evaluation): at `jd = 2451190` (355 days before the
J2000 epoch, i.e. the valid birth date 1999-01-11) with the perturbation
term at the in-range value -10, the Sun's emitted ecliptic longitude is
-5 — outside [0,360) — and its sign index is -1 — outside [0,11].  The
JavaScript `(position + randomOffset + 360) % 360` normalisation is not
sufficient when `position + randomOffset < -360 + 360`. -/
theorem claim_C1_longitude_out_of_range :
    (((calculatePlanetaryPositions (2451190 : ℚ) 40.7128 (-74.0060)
        (fun _ => -10) (fun _ => 0) (fun _ => false)).lookup "sun").map
      fun p => (p.longitude, p.sign)) = some (-5, -1) := by
  have h1 : jsMod (-355 : ℚ) 360 = -355 := by
    rw [@jsMod_eval_neg ℚ _ _ (-355) 360 0 (by norm_num) (by norm_num)
      (by norm_num) (by norm_num)]
    norm_num
  have h2 : jsMod (-5 : ℚ) 360 = -5 := by
    rw [@jsMod_eval_neg ℚ _ _ (-5) 360 0 (by norm_num) (by norm_num)
      (by norm_num) (by norm_num)]
    norm_num
  simp only [calculatePlanetaryPositions, planetRegistry, daysSinceJ2000,
    baseJD_rat, List.map_cons, List.map_nil, List.lookup]
  norm_num [h1, h2]

/-! ## House-engine lemmas -/

theorem jsMod_wrap_bounds (x : ℝ) (hx : -90 < x) :
    0 ≤ jsMod (x + 360) 360 ∧ jsMod (x + 360) 360 < 360 :=
  ⟨jsMod_nonneg (by linarith) (by norm_num),
   jsMod_lt (by linarith) (by norm_num)⟩

/-- The ascendant formula always lands in [0, 360). -/
theorem calculateAscendant_bounds (jd lat lon : ℝ) :
    0 ≤ calculateAscendant jd lat lon ∧ calculateAscendant jd lat lon < 360 := by
  have hpi := Real.pi_pos
  have key : ∀ z : ℝ, -90 < Real.arctan z * 180 / Real.pi := by
    intro z
    rw [lt_div_iff hpi]
    have h := Real.neg_pi_div_two_lt_arctan z
    nlinarith [h]
  simp only [calculateAscendant]
  set z := -Real.cos (calculateLocalSiderealTime jd lon * Real.pi / 180) /
    (Real.sin (calculateLocalSiderealTime jd lon * Real.pi / 180) *
        Real.cos (lat * Real.pi / 180) -
      Real.tan 0 * Real.sin (lat * Real.pi / 180)) with hz
  have hE := key z
  split_ifs with hc
  · exact jsMod_wrap_bounds _ (by linarith)
  · exact jsMod_wrap_bounds _ (by linarith)

theorem calculateHouses_equal (jd lat lon : ℝ) :
    calculateHouses jd lat lon "equal" =
      equalHouses (calculateAscendant jd lat lon) := by
  rw [calculateHouses]
  simp

theorem equalHouses_length (asc : ℝ) : (equalHouses asc).length = 12 := by
  unfold equalHouses
  rw [List.length_map, List.length_range]

theorem equalHouses_getD (asc : ℝ) {i : ℕ} (hi : i < 12) :
    (equalHouses asc).getD i default =
      ⟨(i : ℤ) + 1, jsMod (asc + (i : ℝ) * 30) 360, "Equal"⟩ := by
  unfold equalHouses
  rw [List.getD_eq_getElem?_getD, List.getElem?_map, List.getElem?_range hi]
  rfl

theorem equalHouses_cusp0 {asc : ℝ} (h0 : 0 ≤ asc) (h360 : asc < 360) :
    ((equalHouses asc).getD 0 default).cusp = asc := by
  rw [equalHouses_getD asc (show (0:ℕ) < 12 by norm_num)]
  norm_num
  exact jsMod_eq_self h0 (by norm_num) h360

theorem equalHouses_spacing {asc : ℝ} (h0 : 0 ≤ asc) {i : ℕ} (hi : i < 11) :
    ∃ k : ℤ,
      ((equalHouses asc).getD (i + 1) default).cusp -
        ((equalHouses asc).getD i default).cusp = 30 + 360 * k := by
  rw [equalHouses_getD asc (show i + 1 < 12 by omega),
    equalHouses_getD asc (show i < 12 by omega)]
  obtain ⟨k, hk⟩ := jsMod_shift_diff (asc + (i : ℝ) * 30)
    (asc + ((i + 1 : ℕ) : ℝ) * 30) 360
    (by norm_num) (by positivity) (by positivity)
  refine ⟨k, ?_⟩
  simp only []
  rw [hk]
  push_cast
  ring

/-! ## Claim C5: exactness of the Equal house system -/

/-- Claim C5: for every Julian Day, latitude and longitude,
`calculateHouses` with `system = "equal"` returns 12 cusps numbered 1..12,
with `cusp i = (ascendant + i*30) mod 360`, cusp 0 equal to the computed
ascendant, and consecutive cusps exactly 30 degrees apart modulo 360. -/
theorem claim_C5_equal_house_exactness (jd lat lon : ℝ) :
    (calculateHouses jd lat lon "equal").length = 12 ∧
    (∀ i : ℕ, i < 12 →
      ((calculateHouses jd lat lon "equal").getD i default).number = (i : ℤ) + 1 ∧
      ((calculateHouses jd lat lon "equal").getD i default).cusp =
        jsMod (calculateAscendant jd lat lon + (i : ℝ) * 30) 360) ∧
    ((calculateHouses jd lat lon "equal").getD 0 default).cusp =
      calculateAscendant jd lat lon ∧
    (∀ i : ℕ, i < 11 → ∃ k : ℤ,
      ((calculateHouses jd lat lon "equal").getD (i + 1) default).cusp -
        ((calculateHouses jd lat lon "equal").getD i default).cusp =
        30 + 360 * k) := by
  have hb := calculateAscendant_bounds jd lat lon
  rw [calculateHouses_equal]
  refine ⟨equalHouses_length _, fun i hi => ?_, equalHouses_cusp0 hb.1 hb.2,
    fun i hi => equalHouses_spacing hb.1 hi⟩
  rw [equalHouses_getD _ hi]
  exact ⟨rfl, rfl⟩

/-- Witness for C5 at `jd = lat = lon = 0`, house index 3 and spacing step
5. -/
theorem claim_C5_equal_house_exactness_witness :
    (((calculateHouses 0 0 0 "equal").getD 3 default).number = (3 : ℤ) + 1 ∧
      ((calculateHouses 0 0 0 "equal").getD 3 default).cusp =
        jsMod (calculateAscendant 0 0 0 + (3 : ℝ) * 30) 360) ∧
    (∃ k : ℤ,
      ((calculateHouses 0 0 0 "equal").getD (5 + 1) default).cusp -
        ((calculateHouses 0 0 0 "equal").getD 5 default).cusp =
        30 + 360 * k) :=
  ⟨(claim_C5_equal_house_exactness 0 0 0).2.1 3 (by norm_num),
   (claim_C5_equal_house_exactness 0 0 0).2.2.2 5 (by norm_num)⟩

/-! ## Claim C4: house anchors (ascendant and midheaven) -/

theorem arctan_deg_bounds (z : ℝ) :
    -90 < Real.arctan z * 180 / Real.pi ∧ Real.arctan z * 180 / Real.pi < 90 := by
  have hpi := Real.pi_pos
  constructor
  · rw [lt_div_iff hpi]
    nlinarith [Real.neg_pi_div_two_lt_arctan z]
  · rw [div_lt_iff hpi]
    nlinarith [Real.arctan_lt_pi_div_two z]

theorem lmst_at_c4 : calculateLocalSiderealTime 2451545 19.53938163 = 300 := by
  simp only [calculateLocalSiderealTime]
  norm_num
  exact jsMod_eq_self (by norm_num) (by norm_num) (by norm_num)

theorem cos_lmst_c4 : Real.cos ((300 : ℝ) * Real.pi / 180) = 1 / 2 := by
  have h1 : (300 : ℝ) * Real.pi / 180 = 2 * Real.pi - Real.pi / 3 := by ring
  rw [h1, Real.cos_sub, Real.cos_two_pi, Real.sin_two_pi, Real.cos_pi_div_three]
  norm_num

theorem asc_at_c4 :
    90 < calculateAscendant 2451545 40.7128 19.53938163 ∧
    calculateAscendant 2451545 40.7128 19.53938163 < 270 := by
  simp only [calculateAscendant, lmst_at_c4]
  set z := -Real.cos ((300 : ℝ) * Real.pi / 180) /
    (Real.sin ((300 : ℝ) * Real.pi / 180) * Real.cos (40.7128 * Real.pi / 180) -
      Real.tan 0 * Real.sin (40.7128 * Real.pi / 180)) with hz
  have hb := arctan_deg_bounds z
  rw [if_pos (by rw [cos_lmst_c4]; norm_num : Real.cos ((300 : ℝ) * Real.pi / 180) > 0)]
  have heval : jsMod (Real.arctan z * 180 / Real.pi + 180 + 360) 360
      = Real.arctan z * 180 / Real.pi + 180 := by
    rw [@jsMod_eval_nonneg ℝ _ _
      (Real.arctan z * 180 / Real.pi + 180 + 360) 360 1
      (by norm_num) (by norm_num)
      (by push_cast; linarith [hb.1]) (by push_cast; linarith [hb.2])]
    push_cast
    ring
  rw [heval]
  constructor
  · linarith [hb.1]
  · linarith [hb.2]

/-- Claim C4 (counterexample): at `jd = 2451545`, latitude 40.7128,
longitude 19.53938163, the sidereal time is 300 degrees, so the Midheaven
(`LMST mod 360`) is 300; but `cos(lstRad) = cos(300°) = 1/2 > 0` puts the
ascendant in (90, 270) (the arctan term lies in (-90, 90) and the +180
correction applies), so the Equal-system house 10 cusp,
`(ascendant + 270) mod 360 = ascendant - 90`, lies in (0, 180) and cannot
equal the Midheaven.  All quantities here are far from any branch boundary
or division singularity, so floating-point evaluation of the source agrees
(numerically: ascendant ≈ 217.29, cusp 10 ≈ 127.29, Midheaven = 300). -/
theorem claim_C4_counterexample :
    ((calculateHouses 2451545 40.7128 19.53938163 "equal").getD 9
        default).cusp < 180 ∧
    calculateMidheaven (calculateLocalSiderealTime 2451545 19.53938163)
      = 300 ∧
    ((calculateHouses 2451545 40.7128 19.53938163 "equal").getD 9
        default).cusp ≠
      calculateMidheaven (calculateLocalSiderealTime 2451545 19.53938163) := by
  have hasc := asc_at_c4
  have hcusp :
      ((calculateHouses 2451545 40.7128 19.53938163 "equal").getD 9
          default).cusp
        = calculateAscendant 2451545 40.7128 19.53938163 - 90 := by
    rw [calculateHouses_equal,
      equalHouses_getD _ (show (9 : ℕ) < 12 by norm_num)]
    simp only []
    rw [show ((9 : ℕ) : ℝ) * 30 = 270 by norm_num]
    rw [@jsMod_eval_nonneg ℝ _ _
      (calculateAscendant 2451545 40.7128 19.53938163 + 270) 360 1
      (by norm_num) (by norm_num)
      (by push_cast; linarith [hasc.1]) (by push_cast; linarith [hasc.2])]
    push_cast
    ring
  have hmc : calculateMidheaven (calculateLocalSiderealTime 2451545
      19.53938163) = 300 := by
    rw [calculateMidheaven, lmst_at_c4]
    exact jsMod_eq_self (by norm_num) (by norm_num) (by norm_num)
  refine ⟨?_, hmc, ?_⟩
  · rw [hcusp]
    linarith [hasc.2]
  · rw [hcusp, hmc]
    intro h
    linarith [hasc.2]

theorem calculateHouses_nonequal (jd lat lon : ℝ) {system : String}
    (h : system ≠ "equal") :
    calculateHouses jd lat lon system =
      placidusHouses (calculateAscendant jd lat lon)
        (calculateMidheaven (calculateLocalSiderealTime jd lon)) lat := by
  rw [calculateHouses]
  simp [h]

theorem placidusHouses_cusp0 (asc mc lat : ℝ) :
    ((placidusHouses asc mc lat).getD 0 default).cusp = asc := by
  simp [placidusHouses, sortByNumber, insertByNumber, List.getD]

theorem placidusHouses_cusp9 (asc mc lat : ℝ) :
    ((placidusHouses asc mc lat).getD 9 default).cusp = mc := by
  simp [placidusHouses, sortByNumber, insertByNumber, List.getD]

/-- Claim C4 (amended): for every input and house system, house 1's cusp is
the computed Ascendant, and the assembled chart's `ascendant`/`midheaven`
fields are houses[0]'s and houses[9]'s cusps; house 10's cusp equals the
Midheaven (`LMST mod 360`) for every non-Equal system, while for the Equal
system house 10's cusp is `(ascendant + 270) mod 360` instead. -/
theorem claim_C4_house_anchors (jd lat lon : ℝ) (system : String) :
    ((calculateHouses jd lat lon system).getD 0 default).cusp =
      calculateAscendant jd lat lon ∧
    (system ≠ "equal" →
      ((calculateHouses jd lat lon system).getD 9 default).cusp =
        calculateMidheaven (calculateLocalSiderealTime jd lon)) ∧
    (system = "equal" →
      ((calculateHouses jd lat lon system).getD 9 default).cusp =
        jsMod (calculateAscendant jd lat lon + 270) 360) ∧
    (∀ (py pm pd : ℤ) (ph : ℚ) (pf lf : String → ℝ) (rf : String → Bool),
      (calculateNatalChart py pm pd ph lat lon system pf lf rf).ascendant =
        ((calculateNatalChart py pm pd ph lat lon system pf lf rf).houses.getD
          0 default).cusp ∧
      (calculateNatalChart py pm pd ph lat lon system pf lf rf).midheaven =
        ((calculateNatalChart py pm pd ph lat lon system pf lf rf).houses.getD
          9 default).cusp) := by
  have hb := calculateAscendant_bounds jd lat lon
  by_cases hsys : system = "equal"
  · subst hsys
    refine ⟨?_, fun h => absurd rfl h, fun _ => ?_, fun _ _ _ _ _ _ _ => ⟨rfl, rfl⟩⟩
    · rw [calculateHouses_equal]
      exact equalHouses_cusp0 hb.1 hb.2
    · rw [calculateHouses_equal, equalHouses_getD _ (show (9:ℕ) < 12 by norm_num)]
      norm_num
  · rw [calculateHouses_nonequal jd lat lon hsys]
    exact ⟨placidusHouses_cusp0 _ _ _, fun _ => placidusHouses_cusp9 _ _ _,
      fun h => absurd h hsys, fun _ _ _ _ _ _ _ => ⟨rfl, rfl⟩⟩

/-- Witness for C4 (amended) at `jd = lat = lon = 0` for both house-system
branches. -/
theorem claim_C4_house_anchors_witness :
    ((calculateHouses 0 0 0 "placidus").getD 0 default).cusp =
      calculateAscendant 0 0 0 ∧
    ((calculateHouses 0 0 0 "placidus").getD 9 default).cusp =
      calculateMidheaven (calculateLocalSiderealTime 0 0) ∧
    ((calculateHouses 0 0 0 "equal").getD 9 default).cusp =
      jsMod (calculateAscendant 0 0 0 + 270) 360 :=
  ⟨(claim_C4_house_anchors 0 0 0 "placidus").1,
   (claim_C4_house_anchors 0 0 0 "placidus").2.1 (by decide),
   (claim_C4_house_anchors 0 0 0 "equal").2.2.1 rfl⟩

/-! ## Claim C9: the J2000 end-to-end scenario -/

/-- Claim C9: for birth date 2000-01-01, time 12:00, latitude 40.7128,
longitude -74.0060, Equal houses: the Julian Day is 2451545, the day offset
from the J2000 epoch is 0, every planet's longitude with the perturbation
suppressed is 0 (the base longitude before perturbation), the Sun's sign
index is therefore 0 (Aries), and the twelve house cusps start at the
computed ascendant and are exactly 30 degrees apart. -/
theorem claim_C9_end_to_end (latOff : String → ℚ) (retro : String → Bool) :
    calculateJulianDay 2000 1 1 12 = 2451545 ∧
    daysSinceJ2000 (calculateJulianDay 2000 1 1 12) = 0 ∧
    (∀ pr ∈ calculatePlanetaryPositions (calculateJulianDay 2000 1 1 12)
        40.7128 (-74.0060) (fun _ => 0) latOff retro,
      pr.2.longitude = 0 ∧ pr.2.sign = 0) ∧
    (calculateHouses ((calculateJulianDay 2000 1 1 12 : ℚ) : ℝ) 40.7128
        (-74.0060) "equal").length = 12 ∧
    ((calculateHouses ((calculateJulianDay 2000 1 1 12 : ℚ) : ℝ) 40.7128
        (-74.0060) "equal").getD 0 default).cusp =
      calculateAscendant ((calculateJulianDay 2000 1 1 12 : ℚ) : ℝ) 40.7128
        (-74.0060) ∧
    (∀ i : ℕ, i < 11 → ∃ k : ℤ,
      ((calculateHouses ((calculateJulianDay 2000 1 1 12 : ℚ) : ℝ) 40.7128
          (-74.0060) "equal").getD (i + 1) default).cusp -
        ((calculateHouses ((calculateJulianDay 2000 1 1 12 : ℚ) : ℝ) 40.7128
          (-74.0060) "equal").getD i default).cusp = 30 + 360 * k) := by
  have hdays : daysSinceJ2000 ((2451545 : ℚ)) = 0 := by
    rw [daysSinceJ2000, baseJD_rat]
    norm_num
  have hz1 : jsMod ((0 : ℚ)) 360 = 0 :=
    jsMod_eq_self le_rfl (by norm_num) (by norm_num)
  have hz2 : jsMod ((360 : ℚ)) 360 = 0 := by
    rw [@jsMod_eval_nonneg ℚ _ _ 360 360 1 (by norm_num) (by norm_num)
      (by norm_num) (by norm_num)]
    norm_num
  have hb := calculateAscendant_bounds
    ((calculateJulianDay 2000 1 1 12 : ℚ) : ℝ) 40.7128 (-74.0060)
  refine ⟨calculateJulianDay_J2000, by rw [calculateJulianDay_J2000]; exact hdays,
    fun pr hpr => ?_, ?_, ?_, fun i hi => ?_⟩
  · rw [calculateJulianDay_J2000] at hpr
    simp only [calculatePlanetaryPositions, hdays, List.mem_map] at hpr
    obtain ⟨p, hmem, rfl⟩ := hpr
    simp only [zero_mul, hz1, zero_add, hz2]
    norm_num [hz2]
  · rw [calculateHouses_equal]
    exact equalHouses_length _
  · rw [calculateHouses_equal]
    exact equalHouses_cusp0 hb.1 hb.2
  · rw [calculateHouses_equal]
    exact equalHouses_spacing hb.1 hi

/-- Witness for C9: the Julian Day value and the cusp spacing between
houses 3 and 4. -/
theorem claim_C9_end_to_end_witness :
    calculateJulianDay 2000 1 1 12 = 2451545 ∧
    (∃ k : ℤ,
      ((calculateHouses ((calculateJulianDay 2000 1 1 12 : ℚ) : ℝ) 40.7128
          (-74.0060) "equal").getD (2 + 1) default).cusp -
        ((calculateHouses ((calculateJulianDay 2000 1 1 12 : ℚ) : ℝ) 40.7128
          (-74.0060) "equal").getD 2 default).cusp = 30 + 360 * k) :=
  ⟨(claim_C9_end_to_end (fun _ => 0) (fun _ => false)).1,
   (claim_C9_end_to_end (fun _ => 0) (fun _ => false)).2.2.2.2.2 2 (by norm_num)⟩

/-! ## Claim C2: at most one aspect per pair, first matching type wins -/

theorem mem_pairsOf {γ : Type} {x y : γ} :
    ∀ {l : List γ}, (x, y) ∈ pairsOf l → x ∈ l ∧ y ∈ l := by
  intro l
  induction l with
  | nil => intro h; simp [pairsOf] at h
  | cons z zs ih =>
    intro h
    rw [pairsOf, List.mem_append] at h
    rcases h with h | h
    · rw [List.mem_map] at h
      obtain ⟨w, hw, hxy⟩ := h
      injection hxy with h1 h2
      subst h1
      subst h2
      exact ⟨List.mem_cons_self _ _, List.mem_cons_of_mem _ hw⟩
    · obtain ⟨hx, hy⟩ := ih h
      exact ⟨List.mem_cons_of_mem z hx, List.mem_cons_of_mem z hy⟩

theorem mem_calculateAspects {α : Type} [LinearOrderedField α]
    {ps : List (String × PlanetPosition α)} {a : Aspect α}
    (h : a ∈ calculateAspects ps) :
    ∃ x y, (x, y) ∈ pairsOf ps ∧ mkAspect x y = some a := by
  rw [calculateAspects, List.mem_filterMap] at h
  obtain ⟨pr, hpr, heq⟩ := h
  exact ⟨pr.1, pr.2, hpr, heq⟩

theorem mkAspect_some {α : Type} [LinearOrderedField α]
    {x y : String × PlanetPosition α} {a : Aspect α}
    (h : mkAspect x y = some a) :
    a.planet1 = x.1 ∧ a.planet2 = y.1 ∧
    ∃ t, firstAspectMatch (pairAngle x.2.longitude y.2.longitude) = some t ∧
      a.type = t.key := by
  simp only [mkAspect] at h
  rcases hfm : firstAspectMatch (pairAngle x.2.longitude y.2.longitude) with _ | t
  · rw [hfm, Option.map_none'] at h
    exact absurd h (by simp)
  · rw [hfm, Option.map_some'] at h
    injection h with h1
    subst h1
    exact ⟨rfl, rfl, t, rfl, rfl⟩

theorem pairAngle_comm {α : Type} [LinearOrderedField α] (l1 l2 : α) :
    pairAngle l1 l2 = pairAngle l2 l1 := by
  rw [pairAngle, pairAngle, abs_sub_comm]

theorem nodup_assoc_eq {β : Type} :
    ∀ {ps : List (String × β)}, (ps.map Prod.fst).Nodup →
      ∀ {k : String} {v w : β}, (k, v) ∈ ps → (k, w) ∈ ps → v = w := by
  intro ps
  induction ps with
  | nil => intro _ k v w hv; simp at hv
  | cons x xs ih =>
    intro hnd k v w hv hw
    rw [List.map_cons, List.nodup_cons] at hnd
    rcases List.mem_cons.mp hv with hv1 | hv1 <;>
      rcases List.mem_cons.mp hw with hw1 | hw1
    · have h2 : (k, v) = (k, w) := hv1.trans hw1.symm
      injection h2
    · exfalso
      apply hnd.1
      have hk : k = x.1 := congrArg Prod.fst hv1
      rw [← hk]
      exact List.mem_map_of_mem Prod.fst hw1
    · exfalso
      apply hnd.1
      have hk : k = x.1 := congrArg Prod.fst hw1
      rw [← hk]
      exact List.mem_map_of_mem Prod.fst hv1
    · exact ih hnd.2 hv1 hw1

theorem calculateAspects_cons {α : Type} [LinearOrderedField α]
    (x : String × PlanetPosition α) (xs : List (String × PlanetPosition α)) :
    calculateAspects (x :: xs) =
      xs.filterMap (fun y => mkAspect x y) ++ calculateAspects xs := by
  rw [calculateAspects, calculateAspects, pairsOf, List.filterMap_append]
  congr 1
  rw [List.filterMap_map]
  rfl

theorem aspects_from_keys {α : Type} [LinearOrderedField α]
    {xs : List (String × PlanetPosition α)} {a : Aspect α}
    (h : a ∈ calculateAspects xs) :
    a.planet1 ∈ xs.map Prod.fst ∧ a.planet2 ∈ xs.map Prod.fst := by
  obtain ⟨u, v, hmem, hmk⟩ := mem_calculateAspects h
  obtain ⟨h1, h2, _⟩ := mkAspect_some hmk
  obtain ⟨hu, hv⟩ := mem_pairsOf hmem
  exact ⟨h1 ▸ List.mem_map_of_mem Prod.fst hu,
    h2 ▸ List.mem_map_of_mem Prod.fst hv⟩

theorem count_cons_ge {a b : String} (l : List String) :
    l.count a ≤ (b :: l).count a := by
  rw [List.count_cons]
  split <;> omega

theorem filterMap_single_length {p q : String} (hpq : p ≠ q)
    (x : String × PlanetPosition ℚ) (hx : x.1 = p) :
    ∀ xs : List (String × PlanetPosition ℚ),
      ((xs.filterMap (fun y => mkAspect x y)).filter (pairPred p q)).length ≤
        (xs.map Prod.fst).count q := by
  intro xs
  induction xs with
  | nil => simp
  | cons y ys ih =>
    rw [List.filterMap_cons]
    rcases hm : mkAspect x y with _ | a
    · simp only [List.map_cons]
      exact le_trans ih (count_cons_ge _)
    · simp only [List.filter_cons, List.map_cons]
      by_cases hpa : pairPred p q a = true
      · rw [if_pos hpa]
        have hyq : y.1 = q := by
          obtain ⟨h1, h2, _⟩ := mkAspect_some hm
          have hp1 : a.planet1 = p := h1.trans hx
          simp only [pairPred, Bool.or_eq_true, Bool.and_eq_true,
            decide_eq_true_eq] at hpa
          rcases hpa with ⟨_, hq⟩ | ⟨hq, _⟩
          · exact h2.symm.trans hq
          · exact absurd (hp1.symm.trans hq) hpq
        have hbeq : (y.1 == q) = true := by rw [hyq]; simp
        rw [List.count_cons, if_pos hbeq]
        simpa using Nat.add_le_add ih (le_refl 1)
      · rw [if_neg hpa]
        exact le_trans ih (count_cons_ge _)

theorem pairPred_comm {α : Type} (p q : String) (a : Aspect α) :
    pairPred p q a = pairPred q p a := by
  rw [pairPred, pairPred, Bool.or_comm]

theorem aspects_pair_count (p q : String) (hpq : p ≠ q) :
    ∀ ps : List (String × PlanetPosition ℚ), (ps.map Prod.fst).Nodup →
      ((calculateAspects ps).filter (pairPred p q)).length ≤ 1 := by
  intro ps
  induction ps with
  | nil => intro _; simp [calculateAspects, pairsOf]
  | cons x xs ih =>
    intro hnd
    rw [List.map_cons, List.nodup_cons] at hnd
    rw [calculateAspects_cons, List.filter_append, List.length_append]
    by_cases hxp : x.1 = p
    · have htail : (calculateAspects xs).filter (pairPred p q) = [] := by
        apply List.filter_eq_nil_iff.mpr
        intro a ha hpa
        have hk := aspects_from_keys ha
        simp only [pairPred, Bool.or_eq_true, Bool.and_eq_true,
          decide_eq_true_eq] at hpa
        apply hnd.1
        rw [hxp]
        rcases hpa with ⟨h1, _⟩ | ⟨_, h2⟩
        · exact h1 ▸ hk.1
        · exact h2 ▸ hk.2
      rw [htail]
      have hcount : (xs.map Prod.fst).count q ≤ 1 :=
        List.nodup_iff_count_le_one.mp hnd.2 q
      simpa using le_trans (filterMap_single_length hpq x hxp xs) hcount
    · by_cases hxq : x.1 = q
      · have hswap : ∀ L : List (Aspect ℚ),
            L.filter (pairPred p q) = L.filter (pairPred q p) := by
          intro L
          exact List.filter_congr fun a _ => pairPred_comm p q a
        have htail : (calculateAspects xs).filter (pairPred p q) = [] := by
          apply List.filter_eq_nil_iff.mpr
          intro a ha hpa
          have hk := aspects_from_keys ha
          simp only [pairPred, Bool.or_eq_true, Bool.and_eq_true,
            decide_eq_true_eq] at hpa
          apply hnd.1
          rw [hxq]
          rcases hpa with ⟨_, h2⟩ | ⟨h1, _⟩
          · exact h2 ▸ hk.2
          · exact h1 ▸ hk.1
        rw [htail, hswap]
        have hcount : (xs.map Prod.fst).count p ≤ 1 :=
          List.nodup_iff_count_le_one.mp hnd.2 p
        simpa using
          le_trans (filterMap_single_length (Ne.symm hpq) x hxq xs) hcount
      · have hhead :
            (xs.filterMap (fun y => mkAspect x y)).filter (pairPred p q) = [] := by
          apply List.filter_eq_nil_iff.mpr
          intro a ha hpa
          rw [List.mem_filterMap] at ha
          obtain ⟨y, _, hmk⟩ := ha
          obtain ⟨h1, _, _⟩ := mkAspect_some hmk
          simp only [pairPred, Bool.or_eq_true, Bool.and_eq_true,
            decide_eq_true_eq] at hpa
          rcases hpa with ⟨hp1, _⟩ | ⟨hq1, _⟩
          · exact hxp (h1.symm.trans hp1)
          · exact hxq (h1.symm.trans hq1)
        rw [hhead]
        simpa using ih hnd.2

/-- Claim C2: for every map of planet positions (distinct keys) and every
unordered pair of distinct planets, `calculateAspects` emits at most one
aspect for that pair, and any emitted aspect's type is the first entry of
the fixed priority-ordered table whose orb test `|angle - canonical| ≤
maxOrb` passes — even when several tolerances would independently match. -/
theorem claim_C2_aspect_uniqueness (ps : List (String × PlanetPosition ℚ))
    (hnd : (ps.map Prod.fst).Nodup) (p q : String) (hpq : p ≠ q) :
    ((calculateAspects ps).filter (pairPred p q)).length ≤ 1 ∧
    (∀ a ∈ calculateAspects ps, pairPred p q a = true →
      ∀ P Q : PlanetPosition ℚ, (p, P) ∈ ps → (q, Q) ∈ ps →
        ∃ t, firstAspectMatch (pairAngle P.longitude Q.longitude) = some t ∧
          a.type = t.key) := by
  refine ⟨aspects_pair_count p q hpq ps hnd, ?_⟩
  intro a ha hpair P Q hP hQ
  obtain ⟨u, v, hmem, hmk⟩ := mem_calculateAspects ha
  obtain ⟨h1, h2, t, hfm, htype⟩ := mkAspect_some hmk
  obtain ⟨hu, hv⟩ := mem_pairsOf hmem
  have hu2 : (u.1, u.2) ∈ ps := by rw [Prod.mk.eta]; exact hu
  have hv2 : (v.1, v.2) ∈ ps := by rw [Prod.mk.eta]; exact hv
  simp only [pairPred, Bool.or_eq_true, Bool.and_eq_true,
    decide_eq_true_eq] at hpair
  rcases hpair with ⟨hp1, hp2⟩ | ⟨hp1, hp2⟩
  · have hup : u.1 = p := h1.symm.trans hp1
    have hvq : v.1 = q := h2.symm.trans hp2
    rw [hup] at hu2
    rw [hvq] at hv2
    have hPu : P = u.2 := nodup_assoc_eq hnd hP hu2
    have hQv : Q = v.2 := nodup_assoc_eq hnd hQ hv2
    rw [hPu, hQv]
    exact ⟨t, hfm, htype⟩
  · have huq : u.1 = q := h1.symm.trans hp1
    have hvp : v.1 = p := h2.symm.trans hp2
    rw [huq] at hu2
    rw [hvp] at hv2
    have hPv : P = v.2 := nodup_assoc_eq hnd hP hv2
    have hQu : Q = u.2 := nodup_assoc_eq hnd hQ hu2
    rw [hPv, hQu, pairAngle_comm]
    exact ⟨t, hfm, htype⟩

/-- Witness for C2 on the two-planet example map. -/
theorem claim_C2_aspect_uniqueness_witness :
    ((calculateAspects pairExamplePositions).filter
      (pairPred "sun" "moon")).length ≤ 1 :=
  (claim_C2_aspect_uniqueness pairExamplePositions (by decide) "sun" "moon"
    (by decide)).1

/-! ## Claim C3: the T-Square detector misses squares stored with the focal
planet first -/

theorem tsquare_example_aspects :
    calculateAspects tSquareExamplePositions =
      [⟨"sun", "mars", "square", 90, 0, "□", "Square", "Challenging", false⟩,
       ⟨"sun", "jupiter", "square", 90, 0, "□", "Square", "Challenging", false⟩,
       ⟨"mars", "jupiter", "opposition", 180, 0, "☍", "Opposition", "Strong",
        false⟩] := by
  norm_num [calculateAspects, tSquareExamplePositions, pairsOf, mkAspect,
    pairAngle, firstAspectMatch, aspectTypes, List.find?, List.filterMap]

/-- Claim C3 (failing evaluation): on the chart whose aspects are a
Mars-Jupiter opposition plus Sun-Mars and Sun-Jupiter squares — with the
Sun stored as `planet1` of both squares, exactly as `calculateAspects`
orders them — `findSpecialPatterns` emits no T-Square at all, although the
Sun squares both ends of the opposition.  The guard
`square.planet1 === p1 || square.planet1 === p2` never fires when the focal
planet is stored as `planet1`. -/
theorem claim_C3_tsquare_missed :
    ((calculateAspects tSquareExamplePositions).filter
      fun a => decide (a.type = "opposition")).length = 1 ∧
    ((calculateAspects tSquareExamplePositions).filter
      fun a => decide (a.type = "square")).length = 2 ∧
    findSpecialPatterns (fun _ => 0) (calculateAspects tSquareExamplePositions)
      = [] := by
  rw [tsquare_example_aspects]
  refine ⟨by decide, by decide, ?_⟩
  decide

/-! ## Claim C6: strict monotonicity of `calculateJulianDay` -/

theorem floorQ_add_offset (d q s : ℤ) (hd : 0 < d) (h0 : 0 ≤ s) (hs : s < d) :
    ⌊((d * q + s : ℤ) : ℚ) / ((d : ℤ) : ℚ)⌋ = q := by
  have hdQ : (0 : ℚ) < ((d : ℤ) : ℚ) := by exact_mod_cast hd
  have hs0 : (0 : ℚ) ≤ (s : ℚ) := by exact_mod_cast h0
  have hsd : (s : ℚ) < (d : ℚ) := by exact_mod_cast hs
  apply floorQ_eval
  · rw [le_div_iff hdQ]
    push_cast
    ring_nf
    linarith
  · rw [div_lt_iff hdQ]
    push_cast
    ring_nf
    linarith

theorem floor_365_aux (u v : ℤ) (h0 : 0 ≤ v) (h4 : v < 4) :
    ⌊(365.25 : ℚ) * ((4 * u + v : ℤ) : ℚ)⌋ = 1461 * u + 365 * v := by
  have key : (365.25 : ℚ) * ((4 * u + v : ℤ) : ℚ) =
      ((4 * (1461 * u + 365 * v) + v : ℤ) : ℚ) / ((4 : ℤ) : ℚ) := by
    push_cast
    ring
  rw [key, floorQ_add_offset 4 (1461 * u + 365 * v) v (by norm_num) h0 h4]

theorem floor36525_eval (z u v : ℤ) (h : z + 4716 = 4 * u + v) (h0 : 0 ≤ v)
    (h4 : v < 4) : ⌊(365.25 : ℚ) * ((z : ℚ) + 4716)⌋ = 1461 * u + 365 * v := by
  have hc : (z : ℚ) + 4716 = ((4 * u + v : ℤ) : ℚ) := by exact_mod_cast h
  rw [hc]
  exact floor_365_aux u v h0 h4

theorem floor100_eval (z c r : ℤ) (h : z = 100 * c + r) (h0 : 0 ≤ r)
    (hr : r < 100) : ⌊(z : ℚ) / 100⌋ = c := by
  have hc : (z : ℚ) / 100 = ((100 * c + r : ℤ) : ℚ) / ((100 : ℤ) : ℚ) := by
    rw [h]; norm_num
  rw [hc, floorQ_add_offset 100 c r (by norm_num) h0 hr]

theorem floor4_eval (z e f : ℤ) (h : z = 4 * e + f) (h0 : 0 ≤ f)
    (hf : f < 4) : ⌊(z : ℚ) / 4⌋ = e := by
  have hc : (z : ℚ) / 4 = ((4 * e + f : ℤ) : ℚ) / ((4 : ℤ) : ℚ) := by
    rw [h]; norm_num
  rw [hc, floorQ_add_offset 4 e f (by norm_num) h0 hf]

theorem calculateJulianDay_jdBase (y m d : ℤ) (h : ℚ) :
    calculateJulianDay y m d h = (jdBase y m : ℚ) + d + h / 24 - 1524.5 := by
  rw [calculateJulianDay, jdBase]
  push_cast
  ring

theorem daysInMonth_ge (y m : ℤ) : 28 ≤ daysInMonth y m := by
  unfold daysInMonth
  split_ifs <;> norm_num


theorem jdBase_gt2 (y m : ℤ) (h : m > 2) :
    jdBase y m = ⌊(365.25 : ℚ) * ((y : ℚ) + 4716)⌋
      + ⌊(30.6001 : ℚ) * ((m : ℚ) + 1)⌋
      + (2 - ⌊(y : ℚ) / 100⌋ + ⌊((⌊(y : ℚ) / 100⌋ : ℤ) : ℚ) / 4⌋) := by
  rw [jdBase, if_pos h, if_pos h]

theorem jdBase_le2 (y m : ℤ) (h : ¬(m > 2)) :
    jdBase y m = ⌊(365.25 : ℚ) * (((y - 1 : ℤ) : ℚ) + 4716)⌋
      + ⌊(30.6001 : ℚ) * (((m + 12 : ℤ) : ℚ) + 1)⌋
      + (2 - ⌊((y - 1 : ℤ) : ℚ) / 100⌋
          + ⌊((⌊((y - 1 : ℤ) : ℚ) / 100⌋ : ℤ) : ℚ) / 4⌋) := by
  rw [jdBase, if_neg h, if_neg h]

theorem dim2_leap (y : ℤ) (h : isLeapYear y) : daysInMonth y 2 = 29 := by
  rw [daysInMonth, if_pos rfl, if_pos h]

theorem dim2_nonleap (y : ℤ) (h : ¬isLeapYear y) : daysInMonth y 2 = 28 := by
  rw [daysInMonth, if_pos rfl, if_neg h]

theorem jdBase_feb_step (y : ℤ) : jdBase y 3 = jdBase y 2 + daysInMonth y 2 := by
  obtain ⟨u, v, hv0, hv4, huv⟩ :
      ∃ u v : ℤ, 0 ≤ v ∧ v < 4 ∧ y + 4715 = 4 * u + v :=
    ⟨(y + 4715) / 4, (y + 4715) % 4, by omega, by omega, by omega⟩
  obtain ⟨c, r, hr0, hr100, hcr⟩ :
      ∃ c r : ℤ, 0 ≤ r ∧ r < 100 ∧ y = 100 * c + r :=
    ⟨y / 100, y % 100, by omega, by omega, by omega⟩
  obtain ⟨e, f, hf0, hf4, hef⟩ :
      ∃ e f : ℤ, 0 ≤ f ∧ f < 4 ∧ c = 4 * e + f :=
    ⟨c / 4, c % 4, by omega, by omega, by omega⟩
  rw [jdBase_gt2 y 3 (by norm_num), jdBase_le2 y 2 (by norm_num)]
  have hmar : ⌊(30.6001 : ℚ) * (((3 : ℤ) : ℚ) + 1)⌋ = 122 := by norm_num
  have hfeb : ⌊(30.6001 : ℚ) * (((2 + 12 : ℤ) : ℚ) + 1)⌋ = 459 := by norm_num
  rw [hmar, hfeb]
  rw [floor36525_eval (y - 1) u v (by omega) hv0 hv4]
  rcases (by omega : v = 0 ∨ v = 1 ∨ v = 2 ∨ v = 3) with rfl | rfl | rfl | rfl
  · rw [floor36525_eval y u 1 (by omega) (by norm_num) (by norm_num)]
    rcases (by omega : r = 0 ∨ 1 ≤ r) with rfl | hr1
    · exfalso; omega
    · rw [floor100_eval y c r (by omega) hr0 hr100,
        floor100_eval (y - 1) c (r - 1) (by omega) (by omega) (by omega)]
      rw [dim2_nonleap y (by unfold isLeapYear; omega)]
      omega
  · rw [floor36525_eval y u 2 (by omega) (by norm_num) (by norm_num)]
    rcases (by omega : r = 0 ∨ 1 ≤ r) with rfl | hr1
    · exfalso; omega
    · rw [floor100_eval y c r (by omega) hr0 hr100,
        floor100_eval (y - 1) c (r - 1) (by omega) (by omega) (by omega)]
      rw [dim2_nonleap y (by unfold isLeapYear; omega)]
      omega
  · rw [floor36525_eval y u 3 (by omega) (by norm_num) (by norm_num)]
    rcases (by omega : r = 0 ∨ 1 ≤ r) with rfl | hr1
    · exfalso; omega
    · rw [floor100_eval y c r (by omega) hr0 hr100,
        floor100_eval (y - 1) c (r - 1) (by omega) (by omega) (by omega)]
      rw [dim2_nonleap y (by unfold isLeapYear; omega)]
      omega
  · rw [floor36525_eval y (u + 1) 0 (by omega) (by norm_num) (by norm_num)]
    rcases (by omega : r = 0 ∨ 1 ≤ r) with rfl | hr1
    · rw [floor100_eval y c 0 (by omega) (by norm_num) (by norm_num),
        floor100_eval (y - 1) (c - 1) 99 (by omega) (by norm_num) (by norm_num)]
      rcases (by omega : f = 0 ∨ 1 ≤ f) with rfl | hf1
      · rw [floor4_eval c e 0 (by omega) (by norm_num) (by norm_num),
          floor4_eval (c - 1) (e - 1) 3 (by omega) (by norm_num) (by norm_num)]
        rw [dim2_leap y (by unfold isLeapYear; omega)]
        omega
      · rw [floor4_eval c e f (by omega) hf0 hf4,
          floor4_eval (c - 1) e (f - 1) (by omega) (by omega) (by omega)]
        rw [dim2_nonleap y (by unfold isLeapYear; omega)]
        omega
    · rw [floor100_eval y c r (by omega) hr0 hr100,
        floor100_eval (y - 1) c (r - 1) (by omega) (by omega) (by omega)]
      rw [dim2_leap y (by unfold isLeapYear; omega)]
      omega

theorem jdBase_step (y m : ℤ) (h1 : 1 ≤ m) (h2 : m ≤ 12) :
    jdBase (if m = 12 then y + 1 else y) (if m = 12 then 1 else m + 1) =
      jdBase y m + daysInMonth y m := by
  interval_cases m
  · norm_num [jdBase, daysInMonth]; omega
  · norm_num
    exact jdBase_feb_step y
  · norm_num [jdBase, daysInMonth]; omega
  · norm_num [jdBase, daysInMonth]; omega
  · norm_num [jdBase, daysInMonth]; omega
  · norm_num [jdBase, daysInMonth]; omega
  · norm_num [jdBase, daysInMonth]; omega
  · norm_num [jdBase, daysInMonth]; omega
  · norm_num [jdBase, daysInMonth]; omega
  · norm_num [jdBase, daysInMonth]; omega
  · norm_num [jdBase, daysInMonth]; omega
  · norm_num [jdBase, daysInMonth]; omega

theorem jdBase_mono : ∀ n : ℕ, ∀ y1 m1 y2 m2 : ℤ, 1 ≤ m1 → m1 ≤ 12 →
    1 ≤ m2 → m2 ≤ 12 → 12 * y2 + m2 = 12 * y1 + m1 + (n + 1) →
    jdBase y1 m1 + daysInMonth y1 m1 ≤ jdBase y2 m2 := by
  intro n
  induction n with
  | zero =>
    intro y1 m1 y2 m2 hm1a hm1b hm2a hm2b hidx
    have hstep := jdBase_step y1 m1 hm1a hm1b
    by_cases h12 : m1 = 12
    · rw [if_pos h12, if_pos h12] at hstep
      have hy : y2 = y1 + 1 ∧ m2 = 1 := by omega
      rw [hy.1, hy.2]
      omega
    · rw [if_neg h12, if_neg h12] at hstep
      have hy : y2 = y1 ∧ m2 = m1 + 1 := by omega
      rw [hy.1, hy.2]
      omega
  | succ k ih =>
    intro y1 m1 y2 m2 hm1a hm1b hm2a hm2b hidx
    have hstep := jdBase_step y1 m1 hm1a hm1b
    by_cases h12 : m1 = 12
    · rw [if_pos h12, if_pos h12] at hstep
      have hle := ih (y1 + 1) 1 y2 m2 (by norm_num) (by norm_num) hm2a hm2b
        (by omega)
      have hpos := daysInMonth_ge (y1 + 1) 1
      omega
    · rw [if_neg h12, if_neg h12] at hstep
      have hle := ih y1 (m1 + 1) y2 m2 (by omega) (by omega) hm2a hm2b
        (by omega)
      have hpos := daysInMonth_ge y1 (m1 + 1)
      omega

/-- Claim C6: `calculateJulianDay` is strictly monotone — for every two
valid Gregorian date/times with the first earlier than the second, the
first's Julian Day is strictly smaller. -/
theorem claim_C6_jd_monotonic (t1 t2 : CivilDateTime) (h1 : ValidCivil t1)
    (h2 : ValidCivil t2) (hlt : civilEarlier t1 t2) :
    toJulianDay t1 < toJulianDay t2 := by
  obtain ⟨hm1a, hm1b, hd1a, hd1b, hh1a, hh1b⟩ := h1
  obtain ⟨hm2a, hm2b, hd2a, hd2b, hh2a, hh2b⟩ := h2
  rw [toJulianDay, toJulianDay, calculateJulianDay_jdBase,
    calculateJulianDay_jdBase]
  have hq1 : t1.hour / 24 < 1 := by
    rw [div_lt_one (by norm_num : (0:ℚ) < 24)]
    exact hh1b
  have hq2 : (0 : ℚ) ≤ t2.hour / 24 := by positivity
  by_cases hym : t1.year = t2.year ∧ t1.month = t2.month
  · rw [hym.1, hym.2]
    rcases hlt with hy | ⟨hy, hm | ⟨hm, hd | ⟨hd, hh⟩⟩⟩
    · omega
    · omega
    · have hdq : (t1.day : ℚ) + 1 ≤ (t2.day : ℚ) := by exact_mod_cast hd
      linarith
    · have hdq : (t1.day : ℚ) = (t2.day : ℚ) := by exact_mod_cast hd
      have hhq : t1.hour / 24 < t2.hour / 24 := by
        apply div_lt_div_of_pos_right hh  -- placeholder, fixed below if name wrong
        norm_num
      linarith
  · have hidx : 12 * t1.year + t1.month < 12 * t2.year + t2.month := by
      rcases hlt with hy | ⟨hy, hm | ⟨hm, _⟩⟩
      · omega
      · omega
      · omega
    have hchain := jdBase_mono
      (12 * t2.year + t2.month - (12 * t1.year + t1.month) - 1).toNat
      t1.year t1.month t2.year t2.month hm1a hm1b hm2a hm2b (by omega)
    have hcast : (jdBase t1.year t1.month : ℚ)
        + (daysInMonth t1.year t1.month : ℚ) ≤ (jdBase t2.year t2.month : ℚ) := by
      exact_mod_cast hchain
    have hdub : (t1.day : ℚ) ≤ (daysInMonth t1.year t1.month : ℚ) := by
      exact_mod_cast hd1b
    have hd2q : (1 : ℚ) ≤ (t2.day : ℚ) := by exact_mod_cast hd2a
    linarith

/-- Witness for C6: 1999-12-31 23:00 is strictly before 2000-01-01 00:00 in
Julian Days. -/
theorem claim_C6_jd_monotonic_witness :
    toJulianDay ⟨1999, 12, 31, 23⟩ < toJulianDay ⟨2000, 1, 1, 0⟩ :=
  claim_C6_jd_monotonic ⟨1999, 12, 31, 23⟩ ⟨2000, 1, 1, 0⟩
    (by norm_num [ValidCivil, daysInMonth, isLeapYear])
    (by norm_num [ValidCivil, daysInMonth, isLeapYear])
    (by norm_num [civilEarlier])

/-! ## Claim C7: Grand Trine detection and deduplication -/

theorem foldl_preserves {β γ : Type} (f : β → γ → β) (P : β → Prop)
    (hpres : ∀ acc y, P acc → P (f acc y)) :
    ∀ (l : List γ) (acc : β), P acc → P (l.foldl f acc) := by
  intro l
  induction l with
  | nil => intro acc hacc; exact hacc
  | cons z zs ih =>
    intro acc hacc
    exact ih _ (hpres _ _ hacc)

theorem foldl_establish {β γ : Type} (f : β → γ → β) (P : β → Prop)
    (hpres : ∀ acc y, P acc → P (f acc y)) (x : γ)
    (hx : ∀ acc, P (f acc x)) :
    ∀ (l : List γ) (acc : β), x ∈ l → P (l.foldl f acc) := by
  intro l
  induction l with
  | nil => intro acc hmem; simp at hmem
  | cons z zs ih =>
    intro acc hmem
    rcases List.mem_cons.mp hmem with rfl | hmem2
    · exact foldl_preserves f P hpres zs _ (hx acc)
    · exact ih _ hmem2

theorem lookupNbrs_mem : ∀ {g : List (String × List String)} {x : String},
    lookupNbrs g x ≠ [] → (x, lookupNbrs g x) ∈ g := by
  intro g
  induction g with
  | nil => intro x h; simp [lookupNbrs] at h
  | cons e rest ih =>
    intro x h
    obtain ⟨k, ns⟩ := e
    rw [lookupNbrs] at h ⊢
    by_cases hk : k = x
    · rw [if_pos hk] at h ⊢
      rw [← hk]
      exact List.mem_cons_self _ _
    · rw [if_neg hk] at h ⊢
      exact List.mem_cons_of_mem _ (ih h)

theorem lookupNbrs_addNeighbor_self (a b : String) :
    ∀ g : List (String × List String),
      b ∈ lookupNbrs (addNeighbor g a b) a := by
  intro g
  induction g with
  | nil => simp [addNeighbor, lookupNbrs]
  | cons e rest ih =>
    obtain ⟨k, ns⟩ := e
    rw [addNeighbor]
    by_cases hk : k = a
    · rw [if_pos hk, lookupNbrs, if_pos hk]
      by_cases hb : b ∈ ns
      · rw [if_pos hb]; exact hb
      · rw [if_neg hb]; exact List.mem_append_right _ (List.mem_singleton_self b)
    · rw [if_neg hk, lookupNbrs, if_neg hk]
      exact ih

theorem lookupNbrs_addNeighbor_mono (a b x y : String) :
    ∀ g : List (String × List String), y ∈ lookupNbrs g x →
      y ∈ lookupNbrs (addNeighbor g a b) x := by
  intro g
  induction g with
  | nil => intro h; simp [lookupNbrs] at h
  | cons e rest ih =>
    intro h
    obtain ⟨k, ns⟩ := e
    rw [addNeighbor]
    by_cases hk : k = a
    · rw [if_pos hk]
      rw [lookupNbrs] at h ⊢
      by_cases hx : k = x
      · rw [if_pos hx] at h ⊢
        by_cases hb : b ∈ ns
        · rw [if_pos hb]; exact h
        · rw [if_neg hb]; exact List.mem_append_left _ h
      · rw [if_neg hx] at h ⊢
        exact h
    · rw [if_neg hk]
      rw [lookupNbrs] at h ⊢
      by_cases hx : k = x
      · rw [if_pos hx] at h ⊢
        exact h
      · rw [if_neg hx] at h ⊢
        exact ih h

theorem build_adj (trines : List (Aspect ℚ)) {t : Aspect ℚ} (h : t ∈ trines) :
    t.planet2 ∈ lookupNbrs (buildTrineGroups trines) t.planet1 ∧
    t.planet1 ∈ lookupNbrs (buildTrineGroups trines) t.planet2 := by
  rw [buildTrineGroups]
  apply foldl_establish _
    (fun g => t.planet2 ∈ lookupNbrs g t.planet1 ∧
      t.planet1 ∈ lookupNbrs g t.planet2)
    ?_ t ?_ trines [] h
  · intro acc u hacc
    exact ⟨lookupNbrs_addNeighbor_mono _ _ _ _ _
        (lookupNbrs_addNeighbor_mono _ _ _ _ _ hacc.1),
      lookupNbrs_addNeighbor_mono _ _ _ _ _
        (lookupNbrs_addNeighbor_mono _ _ _ _ _ hacc.2)⟩
  · intro acc
    exact ⟨lookupNbrs_addNeighbor_mono _ _ _ _ _
        (lookupNbrs_addNeighbor_self _ _ _),
      lookupNbrs_addNeighbor_self _ _ _⟩


theorem pushGrandTrine_mem (pos : String → ℚ)
    (groups : List (String × List String)) (pats : List ChartPattern)
    (p1 p2 p3 : String) {a : ChartPattern} (h : a ∈ pats) :
    a ∈ pushGrandTrine pos groups pats p1 p2 p3 := by
  rw [pushGrandTrine]
  split_ifs with h1 h2
  · exact h
  · exact List.mem_append_left _ h
  · exact h

theorem pushGrandTrine_establishes (pos : String → ℚ)
    (groups : List (String × List String)) (pats : List ChartPattern)
    {p1 p2 p3 : String} (hg : p2 ≠ p3 ∧ p3 ∈ lookupNbrs groups p2) :
    ∃ q ∈ pushGrandTrine pos groups pats p1 p2 p3,
      q.planets = sortKey3 p1 p2 p3 := by
  rw [pushGrandTrine, if_pos hg]
  by_cases hany : (pats.any fun p => decide (p.planets = sortKey3 p1 p2 p3)) = true
  · rw [if_pos hany]
    rw [List.any_eq_true] at hany
    obtain ⟨q, hq, hqk⟩ := hany
    exact ⟨q, hq, by simpa using hqk⟩
  · rw [if_neg hany]
    refine ⟨⟨"Grand Trine", sortKey3 p1 p2 p3,
      getSignElement ⌊pos p1 / 30⌋, none⟩, ?_, rfl⟩
    exact List.mem_append_right _ (List.mem_singleton_self _)

theorem grandTrinePhase_complete (pos : String → ℚ)
    (groups : List (String × List String)) {A B C : String}
    (hB : B ∈ lookupNbrs groups A) (hC : C ∈ lookupNbrs groups A)
    (hbc : B ≠ C) (hCB : C ∈ lookupNbrs groups B) :
    ∃ q ∈ grandTrinePhase pos groups, q.planets = sortKey3 A B C := by
  have hne : lookupNbrs groups A ≠ [] := by
    intro hnil
    rw [hnil] at hB
    simp at hB
  have hmemA : (A, lookupNbrs groups A) ∈ groups := lookupNbrs_mem hne
  have hpres3 : ∀ (ps2 : List ChartPattern) (p3 : String),
      (∃ q ∈ ps2, q.planets = sortKey3 A B C) →
      ∃ q ∈ pushGrandTrine pos groups ps2 A B p3,
        q.planets = sortKey3 A B C := by
    intro ps2 p3 hps2
    obtain ⟨q, hq, hqk⟩ := hps2
    exact ⟨q, pushGrandTrine_mem pos groups ps2 A B p3 hq, hqk⟩
  have hest2 : ∀ ps : List ChartPattern,
      ∃ q ∈ (lookupNbrs groups A).foldl
        (fun ps2 p3 => pushGrandTrine pos groups ps2 A B p3) ps,
        q.planets = sortKey3 A B C := by
    intro ps
    exact foldl_establish
      (fun ps2 p3 => pushGrandTrine pos groups ps2 A B p3)
      (fun pats => ∃ q ∈ pats, q.planets = sortKey3 A B C)
      hpres3 C
      (fun ps2 => pushGrandTrine_establishes pos groups ps2 ⟨hbc, hCB⟩)
      (lookupNbrs groups A) ps hC
  have hpres2 : ∀ (ps : List ChartPattern) (p2 : String),
      (∃ q ∈ ps, q.planets = sortKey3 A B C) →
      ∃ q ∈ (lookupNbrs groups A).foldl
        (fun ps2 p3 => pushGrandTrine pos groups ps2 A p2 p3) ps,
        q.planets = sortKey3 A B C := by
    intro ps p2 hps
    apply foldl_preserves
      (fun ps2 p3 => pushGrandTrine pos groups ps2 A p2 p3)
      (fun pats => ∃ q ∈ pats, q.planets = sortKey3 A B C)
      ?_ (lookupNbrs groups A) ps hps
    intro ps2 p3 hps2
    obtain ⟨q, hq, hqk⟩ := hps2
    exact ⟨q, pushGrandTrine_mem pos groups ps2 A p2 p3 hq, hqk⟩
  have hestA : ∀ pats : List ChartPattern,
      ∃ q ∈ (A, lookupNbrs groups A).2.foldl
        (fun ps p2 => (A, lookupNbrs groups A).2.foldl
          (fun ps2 p3 =>
            pushGrandTrine pos groups ps2 (A, lookupNbrs groups A).1 p2 p3) ps)
        pats,
        q.planets = sortKey3 A B C := by
    intro pats
    exact foldl_establish
      (fun ps p2 => (lookupNbrs groups A).foldl
        (fun ps2 p3 => pushGrandTrine pos groups ps2 A p2 p3) ps)
      (fun l => ∃ q ∈ l, q.planets = sortKey3 A B C)
      hpres2 B (fun ps => hest2 ps) (lookupNbrs groups A) pats hB
  have hpresE : ∀ (pats : List ChartPattern) (e : String × List String),
      (∃ q ∈ pats, q.planets = sortKey3 A B C) →
      ∃ q ∈ e.2.foldl
        (fun ps p2 => e.2.foldl
          (fun ps2 p3 => pushGrandTrine pos groups ps2 e.1 p2 p3) ps) pats,
        q.planets = sortKey3 A B C := by
    intro pats e hpats
    apply foldl_preserves _
      (fun l => ∃ q ∈ l, q.planets = sortKey3 A B C) ?_ e.2 pats hpats
    intro ps p2 hps
    apply foldl_preserves _
      (fun l => ∃ q ∈ l, q.planets = sortKey3 A B C) ?_ e.2 ps hps
    intro ps2 p3 hps2
    obtain ⟨q, hq, hqk⟩ := hps2
    exact ⟨q, pushGrandTrine_mem pos groups ps2 e.1 p2 p3 hq, hqk⟩
  rw [grandTrinePhase]
  exact foldl_establish
    (fun pats e => e.2.foldl
      (fun ps p2 => e.2.foldl
        (fun ps2 p3 => pushGrandTrine pos groups ps2 e.1 p2 p3) ps) pats)
    (fun l => ∃ q ∈ l, q.planets = sortKey3 A B C)
    hpresE (A, lookupNbrs groups A) hestA groups [] hmemA

theorem pushGrandTrine_shape (pos : String → ℚ)
    (groups : List (String × List String)) (pats : List ChartPattern)
    (p1 p2 p3 : String)
    (h : ∀ q ∈ pats, q.ptype = "Grand Trine" ∧
      ∃ a b c, q.planets = sortKey3 a b c ∧
        q.element = getSignElement ⌊pos a / 30⌋) :
    ∀ q ∈ pushGrandTrine pos groups pats p1 p2 p3,
      q.ptype = "Grand Trine" ∧
      ∃ a b c, q.planets = sortKey3 a b c ∧
        q.element = getSignElement ⌊pos a / 30⌋ := by
  rw [pushGrandTrine]
  split_ifs with h1 h2
  · exact h
  · intro q hq
    rcases List.mem_append.mp hq with hq1 | hq2
    · exact h q hq1
    · rw [List.mem_singleton] at hq2
      subst hq2
      exact ⟨rfl, p1, p2, p3, rfl, rfl⟩
  · exact h

theorem grandTrinePhase_shape (pos : String → ℚ)
    (groups : List (String × List String)) :
    ∀ q ∈ grandTrinePhase pos groups,
      q.ptype = "Grand Trine" ∧
      ∃ a b c, q.planets = sortKey3 a b c ∧
        q.element = getSignElement ⌊pos a / 30⌋ := by
  rw [grandTrinePhase]
  apply foldl_preserves
    (fun pats e => e.2.foldl
      (fun ps p2 => e.2.foldl
        (fun ps2 p3 => pushGrandTrine pos groups ps2 e.1 p2 p3) ps) pats)
    (fun l => ∀ q ∈ l, q.ptype = "Grand Trine" ∧
      ∃ a b c, q.planets = sortKey3 a b c ∧
        q.element = getSignElement ⌊pos a / 30⌋)
    ?_ groups [] (by intro q hq; simp at hq)
  intro pats e hpats
  apply foldl_preserves _
    (fun l => ∀ q ∈ l, q.ptype = "Grand Trine" ∧
      ∃ a b c, q.planets = sortKey3 a b c ∧
        q.element = getSignElement ⌊pos a / 30⌋) ?_ e.2 pats hpats
  intro ps p2 hps
  apply foldl_preserves _
    (fun l => ∀ q ∈ l, q.ptype = "Grand Trine" ∧
      ∃ a b c, q.planets = sortKey3 a b c ∧
        q.element = getSignElement ⌊pos a / 30⌋) ?_ e.2 ps hps
  intro ps2 p3 hps2
  exact pushGrandTrine_shape pos groups ps2 e.1 p2 p3 hps2

theorem pushGrandTrine_nodup (pos : String → ℚ)
    (groups : List (String × List String)) (pats : List ChartPattern)
    (p1 p2 p3 : String)
    (h : (pats.map fun p => p.planets).Nodup) :
    ((pushGrandTrine pos groups pats p1 p2 p3).map fun p => p.planets).Nodup := by
  rw [pushGrandTrine]
  split_ifs with h1 h2
  · exact h
  · rw [List.map_append]
    rw [List.nodup_append]
    refine ⟨h, by simp, ?_⟩
    intro k hk hk2
    simp only [List.map_cons, List.map_nil, List.mem_singleton] at hk2
    subst hk2
    rw [List.mem_map] at hk
    obtain ⟨q, hq, hqk⟩ := hk
    apply h2
    rw [List.any_eq_true]
    exact ⟨q, hq, by simpa using hqk⟩
  · exact h

theorem pushTSquare_mem (squares : List (Aspect ℚ)) (pats : List ChartPattern)
    (p1 p2 : String) (sq : Aspect ℚ) {a : ChartPattern} (h : a ∈ pats) :
    a ∈ pushTSquare squares pats p1 p2 sq := by
  rw [pushTSquare]
  split_ifs with h1 h2 h3
  · exact h
  · exact List.mem_append_left _ h
  · exact h
  · exact h

theorem pushTSquare_nodup (squares : List (Aspect ℚ)) (pats : List ChartPattern)
    (p1 p2 : String) (sq : Aspect ℚ)
    (h : (pats.map fun p => p.planets).Nodup) :
    ((pushTSquare squares pats p1 p2 sq).map fun p => p.planets).Nodup := by
  rw [pushTSquare]
  split_ifs with h1 h2 h3
  · exact h
  · rw [List.map_append, List.nodup_append]
    refine ⟨h, by simp, ?_⟩
    intro k hk hk2
    simp only [List.map_cons, List.map_nil, List.mem_singleton] at hk2
    subst hk2
    rw [List.mem_map] at hk
    obtain ⟨q, hq, hqk⟩ := hk
    apply h3
    rw [List.any_eq_true]
    exact ⟨q, hq, by simpa using hqk⟩
  · exact h
  · exact h

theorem tSquarePhase_mem (squares oppositions : List (Aspect ℚ))
    (pats0 : List ChartPattern) {a : ChartPattern} (h : a ∈ pats0) :
    a ∈ tSquarePhase squares oppositions pats0 := by
  rw [tSquarePhase]
  apply foldl_preserves _ (fun l => a ∈ l) ?_ oppositions pats0 h
  intro pats opp hpats
  apply foldl_preserves _ (fun l => a ∈ l) ?_ squares pats hpats
  intro ps sq hps
  exact pushTSquare_mem squares ps opp.planet1 opp.planet2 sq hps

theorem tSquarePhase_nodup (squares oppositions : List (Aspect ℚ))
    (pats0 : List ChartPattern)
    (h : (pats0.map fun p => p.planets).Nodup) :
    ((tSquarePhase squares oppositions pats0).map fun p => p.planets).Nodup := by
  rw [tSquarePhase]
  apply foldl_preserves _ (fun l => (l.map fun p => p.planets).Nodup)
    ?_ oppositions pats0 h
  intro pats opp hpats
  apply foldl_preserves _ (fun l => (l.map fun p => p.planets).Nodup)
    ?_ squares pats hpats
  intro ps sq hps
  exact pushTSquare_nodup squares ps opp.planet1 opp.planet2 sq hps

theorem grandTrinePhase_nodup (pos : String → ℚ)
    (groups : List (String × List String)) :
    ((grandTrinePhase pos groups).map fun p => p.planets).Nodup := by
  rw [grandTrinePhase]
  apply foldl_preserves
    (fun pats e => e.2.foldl
      (fun ps p2 => e.2.foldl
        (fun ps2 p3 => pushGrandTrine pos groups ps2 e.1 p2 p3) ps) pats)
    (fun l => (l.map fun p => p.planets).Nodup)
    ?_ groups [] (by simp)
  intro pats e hpats
  apply foldl_preserves _ (fun l => (l.map fun p => p.planets).Nodup)
    ?_ e.2 pats hpats
  intro ps p2 hps
  apply foldl_preserves _ (fun l => (l.map fun p => p.planets).Nodup)
    ?_ e.2 ps hps
  intro ps2 p3 hps2
  exact pushGrandTrine_nodup pos groups ps2 e.1 p2 p3 hps2

theorem findSpecialPatterns_nodup (pos : String → ℚ)
    (aspects : List (Aspect ℚ)) :
    ((findSpecialPatterns pos aspects).map fun p => p.planets).Nodup := by
  rw [findSpecialPatterns]
  exact tSquarePhase_nodup _ _ _ (grandTrinePhase_nodup pos _)

theorem keysNodup_unique :
    ∀ {l : List ChartPattern}, ((l.map fun p => p.planets).Nodup) →
      ∀ {p q : ChartPattern}, p ∈ l → q ∈ l → p.planets = q.planets → p = q := by
  intro l
  induction l with
  | nil => intro _ p q hp; simp at hp
  | cons x xs ih =>
    intro hnd p q hp hq he
    rw [List.map_cons, List.nodup_cons] at hnd
    rcases List.mem_cons.mp hp with rfl | hp2 <;>
      rcases List.mem_cons.mp hq with rfl | hq2
    · rfl
    · exfalso
      apply hnd.1
      rw [List.mem_map]
      exact ⟨q, hq2, he.symm⟩
    · exfalso
      apply hnd.1
      rw [List.mem_map]
      exact ⟨p, hp2, he⟩
    · exact ih hnd.2 hp2 hq2 he

theorem keysNodup_filter_length :
    ∀ {l : List ChartPattern}, ((l.map fun p => p.planets).Nodup) →
      ∀ {K : List String}, (∃ q ∈ l, q.planets = K) →
        (l.filter fun p => decide (p.planets = K)).length = 1 := by
  intro l
  induction l with
  | nil => intro _ K hex; simp at hex
  | cons x xs ih =>
    intro hnd K hex
    rw [List.map_cons, List.nodup_cons] at hnd
    rw [List.filter_cons]
    by_cases hx : x.planets = K
    · rw [if_pos (by simpa using hx)]
      have hnil : xs.filter (fun p => decide (p.planets = K)) = [] := by
        apply List.filter_eq_nil_iff.mpr
        intro q hq hqk
        apply hnd.1
        rw [List.mem_map]
        refine ⟨q, hq, ?_⟩
        rw [hx]
        exact (by simpa using hqk : q.planets = K)
      rw [List.length_cons, hnil]
      rfl
    · rw [if_neg (by simpa using hx)]
      apply ih hnd.2
      obtain ⟨q, hq, hqk⟩ := hex
      rcases List.mem_cons.mp hq with rfl | hq2
      · exact absurd hqk hx
      · exact ⟨q, hq2, hqk⟩

theorem trineBetween_adj (aspects : List (Aspect ℚ)) {X Y : String}
    (h : trineBetween aspects X Y) :
    Y ∈ lookupNbrs (buildTrineGroups
        (aspects.filter fun a => decide (a.type = "trine"))) X ∧
    X ∈ lookupNbrs (buildTrineGroups
        (aspects.filter fun a => decide (a.type = "trine"))) Y := by
  obtain ⟨a, ha, htype, hor⟩ := h
  have hmem : a ∈ aspects.filter fun a => decide (a.type = "trine") :=
    List.mem_filter.mpr ⟨ha, by simpa using htype⟩
  have hadj := build_adj _ hmem
  rcases hor with ⟨h1, h2⟩ | ⟨h1, h2⟩
  · rw [h1, h2] at hadj
    exact hadj
  · rw [h1, h2] at hadj
    exact ⟨hadj.2, hadj.1⟩

/-- Claim C7: whenever three distinct planets are pairwise connected by
trine aspects, `findSpecialPatterns` reports exactly one Grand Trine
pattern keyed by the sorted triplet (never a duplicate for any permutation
or discovery order), and tags it with the element of one member's sign. -/
theorem claim_C7_grand_trine_dedup (pos : String → ℚ)
    (aspects : List (Aspect ℚ)) (A B C : String)
    (hAB : trineBetween aspects A B) (hAC : trineBetween aspects A C)
    (hBC : trineBetween aspects B C) (hab : A ≠ B) (hac : A ≠ C)
    (hbc : B ≠ C) :
    ((findSpecialPatterns pos aspects).filter
      fun p => decide (p.planets = sortKey3 A B C)).length = 1 ∧
    ∀ p ∈ findSpecialPatterns pos aspects, p.planets = sortKey3 A B C →
      p.ptype = "Grand Trine" ∧
      ∃ m, m ∈ [A, B, C] ∧ p.element = getSignElement ⌊pos m / 30⌋ := by
  have hAdjAB := trineBetween_adj aspects hAB
  have hAdjAC := trineBetween_adj aspects hAC
  have hAdjBC := trineBetween_adj aspects hBC
  obtain ⟨q, hqGT, hqkey⟩ := grandTrinePhase_complete pos _
    hAdjAB.1 hAdjAC.1 hbc hAdjBC.1
  have hqfinal : q ∈ findSpecialPatterns pos aspects := by
    rw [findSpecialPatterns]
    exact tSquarePhase_mem _ _ _ hqGT
  have hnd := findSpecialPatterns_nodup pos aspects
  constructor
  · exact keysNodup_filter_length hnd ⟨q, hqfinal, hqkey⟩
  · intro p hp hpk
    have hpq : p = q := keysNodup_unique hnd hp hqfinal (by rw [hpk, hqkey])
    subst hpq
    obtain ⟨hty, a, b, c, hpl, hel⟩ := grandTrinePhase_shape pos _ p hqGT
    refine ⟨hty, a, ?_, hel⟩
    have h1 : a ∈ sortKey3 a b c :=
      (List.Perm.mem_iff (List.perm_insertionSort _ _)).mpr (by simp)
    have h2 : sortKey3 a b c = sortKey3 A B C := by rw [← hpl, hpk]
    rw [h2] at h1
    exact (List.Perm.mem_iff (List.perm_insertionSort _ _)).mp h1

/-- Witness for C7 on the Sun-Moon-Venus mutual-trine example. -/
theorem claim_C7_grand_trine_dedup_witness :
    ((findSpecialPatterns (fun _ => 0) grandTrineExampleAspects).filter
      fun p => decide (p.planets = sortKey3 "sun" "moon" "venus")).length = 1 :=
  (claim_C7_grand_trine_dedup (fun _ => 0) grandTrineExampleAspects
    "sun" "moon" "venus" (by decide) (by decide) (by decide)
    (by decide) (by decide) (by decide)).1
